import Mathlib

/-!
Verification development for the zebra-stream Discord bot.

The Python sources (src/bot/discord_bot.py, src/bot/models.py,
src/bot/management/commands/backfill_messages.py) are shallowly embedded
below: the relational event store becomes lists of row records, each ORM
operation becomes an explicit state-passing function, Django exceptions
become Except, and external services (Discord gateway, OpenAI) become
oracle parameters.  Machine 64-bit snowflake ids are modelled as Nat and
timestamps as Int (the code never overflows them arithmetically).
-/

namespace ZebraBot

/-! ## Incoming platform objects (discord.py objects, as far as the code reads them) -/

/-- Channel kinds the code distinguishes (`isinstance` checks in `store_channel`
and `channel.type.name`). -/
inductive ChanKind
  | text
  | voice
  | category
  | thread
  | other
deriving DecidableEq

/-- `channel.type.name` as stored into `channel_type`. -/
def ChanKind.typeName : ChanKind → String
  | .text => "text"
  | .voice => "voice"
  | .category => "category"
  | .thread => "public_thread"
  | .other => "other"

/-- `store_channel` only stores Text/Voice/Category channels (the
`isinstance` guard). -/
def storableKind : ChanKind → Bool
  | .text => true
  | .voice => true
  | .category => true
  | _ => false

/-- An incoming guild object (`guild.id`, `guild.name`). -/
structure InServer where
  gid : Nat
  gname : String
deriving DecidableEq

/-- An incoming channel object with its owning guild. -/
structure InChannel where
  cid : Nat
  guild : InServer
  cname : String
  kind : ChanKind
deriving DecidableEq

/-- An incoming member/user object; `avatar_url` holds the already-resolved
`str(member.avatar.url) if member.avatar else ''`. -/
structure InUser where
  uid : Nat
  uname : String
  display_name : String
  discriminator : String
  avatar_url : String
  bot : Bool
deriving DecidableEq

/-- An incoming reaction on a message: `emoji_name` holds the resolved
`reaction.emoji.name if reaction.emoji.name else str(reaction.emoji)`. -/
structure InReaction where
  emoji_name : String
  emoji_id : Option Nat
  count : Nat
deriving DecidableEq

/-- An incoming message object, as far as `store_message` reads it. -/
structure InMsg where
  mid : Nat
  channel : InChannel
  author : InUser
  content : String
  created_at : Int
  edited_at : Option Int
  pinned : Bool
  attachments : Nat
  embeds : Nat
  reactions : List InReaction
deriving DecidableEq

/-! ## Event store rows (src/bot/models.py) -/

/-- `DiscordServer` row. -/
structure ServerRow where
  server_id : Nat
  name : String
deriving DecidableEq

/-- `DiscordChannel` row (foreign key kept as the unique `server_id`). -/
structure ChannelRow where
  channel_id : Nat
  server_id : Nat
  name : String
  channel_type : String
deriving DecidableEq

/-- `DiscordUser` row. -/
structure UserRow where
  user_id : Nat
  username : String
  display_name : String
  discriminator : String
  avatar_url : String
  is_bot : Bool
deriving DecidableEq

/-- `DiscordMessage` row. -/
structure MessageRow where
  message_id : Nat
  channel_id : Nat
  author_id : Nat
  content : String
  timestamp : Int
  edited_timestamp : Option Int
  is_pinned : Bool
  has_attachments : Bool
  attachment_count : Nat
  has_embeds : Bool
  embed_count : Nat
deriving DecidableEq

/-- `DiscordReaction` row; `unique_together = [message, emoji_name, emoji_id]`. -/
structure ReactionRow where
  message_id : Nat
  emoji_name : String
  emoji_id : Option Nat
  count : Nat
deriving DecidableEq

/-- The relational event store: one list of rows per table. -/
structure Store where
  servers : List ServerRow
  channels : List ChannelRow
  users : List UserRow
  messages : List MessageRow
  reactions : List ReactionRow
deriving DecidableEq

def Store.empty : Store := ⟨[], [], [], [], []⟩

/-- `DiscordServer.objects.get(server_id=i)` (unique key lookup). -/
def findServer (s : Store) (i : Nat) : Option ServerRow :=
  s.servers.find? (fun r => r.server_id == i)

/-- `DiscordChannel.objects.get(channel_id=i)`. -/
def findChannel (s : Store) (i : Nat) : Option ChannelRow :=
  s.channels.find? (fun r => r.channel_id == i)

/-- `DiscordUser.objects.get(user_id=i)`. -/
def findUser (s : Store) (i : Nat) : Option UserRow :=
  s.users.find? (fun r => r.user_id == i)

/-- `DiscordMessage.objects.get(message_id=i)`. -/
def findMessage (s : Store) (i : Nat) : Option MessageRow :=
  s.messages.find? (fun r => r.message_id == i)

/-- Fetch-the-row-then-`save()`: update the first row satisfying `p`
(unique-key rows have at most one match in reachable stores). -/
def updateFirst (p : α → Bool) (f : α → α) : List α → List α
  | [] => []
  | x :: xs => if p x then f x :: xs else x :: updateFirst p f xs

/-! ## Ingestion operations (DiscordIntelligenceBot) -/

/-- `store_guild`: `get_or_create` on `server_id`, then sync `name` if it drifted. -/
def storeGuild (g : InServer) (s : Store) : Store :=
  match findServer s g.gid with
  | none => { s with servers := s.servers ++ [⟨g.gid, g.gname⟩] }
  | some srv =>
      if srv.name ≠ g.gname then
        { s with servers := (updateFirst (fun r => r.server_id == g.gid)
            (fun r => { r with name := g.gname }) s.servers) }
      else s

/-- `store_channel`: returns without storing unless Text/Voice/Category;
`DiscordServer.objects.get` raises `DoesNotExist` when the parent server row
is absent; otherwise `get_or_create` on `channel_id` and sync name/type. -/
def storeChannel (ch : InChannel) (s : Store) : Except String Store :=
  if storableKind ch.kind = false then .ok s
  else
    match findServer s ch.guild.gid with
    | none => .error "DiscordServer.DoesNotExist"
    | some srv =>
        match findChannel s ch.cid with
        | none => .ok { s with channels :=
            s.channels ++ [⟨ch.cid, srv.server_id, ch.cname, ch.kind.typeName⟩] }
        | some row =>
            if row.name ≠ ch.cname ∨ row.channel_type ≠ ch.kind.typeName then
              .ok { s with channels := (updateFirst (fun r => r.channel_id == ch.cid)
                  (fun r => { r with name := ch.cname, channel_type := ch.kind.typeName })
                  s.channels) }
            else .ok s

/-- `get_or_create_channel`: try `get`; on `DoesNotExist` run `store_channel`
then `get` again (which raises again if the channel was not storable). -/
def getOrCreateChannel (ch : InChannel) (s : Store) : Except String (Store × ChannelRow) :=
  match findChannel s ch.cid with
  | some row => .ok (s, row)
  | none =>
      match storeChannel ch s with
      | .error e => .error e
      | .ok s' =>
          match findChannel s' ch.cid with
          | some row => .ok (s', row)
          | none => .error "DiscordChannel.DoesNotExist"

/-- `store_user`: `get_or_create` on `user_id` (discriminator `'0'` stored as
empty), then sync `username`/`display_name`/`avatar_url` when they drifted
(`discriminator` and `is_bot` are not synced). -/
def storeUser (u : InUser) (s : Store) : Store :=
  match findUser s u.uid with
  | none => { s with users :=
      s.users ++ [⟨u.uid, u.uname, u.display_name,
        (if u.discriminator = "0" then "" else u.discriminator), u.avatar_url, u.bot⟩] }
  | some row =>
      if row.username ≠ u.uname ∨ row.display_name ≠ u.display_name ∨
          row.avatar_url ≠ u.avatar_url then
        { s with users := (updateFirst (fun r => r.user_id == u.uid)
            (fun r => { r with username := u.uname, display_name := u.display_name,
                               avatar_url := u.avatar_url }) s.users) }
      else s

/-- `get_or_create_user`: try `get`; on `DoesNotExist` run `store_user` then
`get` again. -/
def getOrCreateUser (u : InUser) (s : Store) : Except String (Store × UserRow) :=
  match findUser s u.uid with
  | some row => .ok (s, row)
  | none =>
      match findUser (storeUser u s) u.uid with
      | some row => .ok (storeUser u s, row)
      | none => .error "DiscordUser.DoesNotExist"

/-- The key of `DiscordReaction.unique_together`. -/
def reactionKey (msgId : Nat) (ename : String) (eid : Option Nat) (r : ReactionRow) : Bool :=
  r.message_id == msgId && r.emoji_name == ename && r.emoji_id == eid

/-- `store_reaction`: `DiscordMessage.objects.get` missing drops the event
(`ObjectDoesNotExist` caught); then `get_or_create` on the reaction key with
`defaults={count}`, overwriting `count` when the row already exists.  A
duplicated key would make `get_or_create` raise `MultipleObjectsReturned`,
swallowed by the broad `except`. -/
def storeReaction (msgId : Nat) (ename : String) (eid : Option Nat) (cnt : Nat)
    (s : Store) : Store :=
  match findMessage s msgId with
  | none => s
  | some _ =>
      if (s.reactions.filter (reactionKey msgId ename eid)).length = 0 then
        { s with reactions := s.reactions ++ [⟨msgId, ename, eid, cnt⟩] }
      else if (s.reactions.filter (reactionKey msgId ename eid)).length = 1 then
        { s with reactions := (updateFirst (reactionKey msgId ename eid)
            (fun r => { r with count := cnt }) s.reactions) }
      else s

/-- `update_reaction_count`: `get` the message then the reaction row and
overwrite `count`; any missing row passes (`ObjectDoesNotExist` caught). -/
def updateReactionCount (msgId : Nat) (ename : String) (eid : Option Nat) (cnt : Nat)
    (s : Store) : Store :=
  match findMessage s msgId with
  | none => s
  | some _ =>
      if (s.reactions.filter (reactionKey msgId ename eid)).length = 1 then
        { s with reactions := (updateFirst (reactionKey msgId ename eid)
            (fun r => { r with count := cnt }) s.reactions) }
      else s

/-- The `DiscordMessage` row `store_message` creates for a fresh id. -/
def mkMessageRow (m : InMsg) (chId uId : Nat) : MessageRow :=
  ⟨m.mid, chId, uId, m.content, m.created_at, m.edited_at, m.pinned,
    decide (0 < m.attachments), m.attachments, decide (0 < m.embeds), m.embeds⟩

/-- `store_message`: get-or-create the parent channel and user, `get_or_create`
the message on `message_id` (an existing row is left untouched), then store
each of the message's reactions.  The whole body is wrapped in
`try/except`, so a raise from the channel/user step drops the event while
keeping the writes already committed. -/
def storeMessage (m : InMsg) (s : Store) : Store :=
  match getOrCreateChannel m.channel s with
  | .error _ => s
  | .ok (s1, ch) =>
      match getOrCreateUser m.author s1 with
      | .error _ => s1
      | .ok (s2, u) =>
          match findMessage s2 m.mid with
          | some _ => m.reactions.foldl
              (fun st r => storeReaction m.mid r.emoji_name r.emoji_id r.count st) s2
          | none => m.reactions.foldl
              (fun st r => storeReaction m.mid r.emoji_name r.emoji_id r.count st)
              { s2 with messages :=
                  s2.messages ++ [mkMessageRow m ch.channel_id u.user_id] }

/-- `on_message`: bot authors are ignored, others stored. -/
def onMessage (m : InMsg) (s : Store) : Store :=
  if m.author.bot then s else storeMessage m s

/-- `on_message_edit`: bot authors ignored; update `content` and
`edited_timestamp` of the stored row, or log a warning when it is absent. -/
def onMessageEdit (mid : Nat) (authorBot : Bool) (content : String)
    (edited : Option Int) (s : Store) : Store :=
  if authorBot then s
  else
    match findMessage s mid with
    | none => s
    | some _ => { s with messages := (updateFirst (fun r => r.message_id == mid)
        (fun r => { r with content := content, edited_timestamp := edited }) s.messages) }

/-- `on_message_delete`: bot authors ignored; `filter(message_id=...).delete()`
removes the row, and the `on_delete=CASCADE` declared on
`DiscordReaction.message` removes its reaction rows with it. -/
def onMessageDelete (mid : Nat) (authorBot : Bool) (s : Store) : Store :=
  if authorBot then s
  else { s with
    messages := s.messages.filter (fun r => r.message_id != mid),
    reactions := s.reactions.filter (fun r => r.message_id != mid) }

/-- `on_reaction_add`: bot reactors ignored, then `store_reaction`. -/
def onReactionAdd (reactorBot : Bool) (msgId : Nat) (r : InReaction) (s : Store) : Store :=
  if reactorBot then s else storeReaction msgId r.emoji_name r.emoji_id r.count s

/-- `on_reaction_remove`: bot reactors ignored, then `update_reaction_count`. -/
def onReactionRemove (reactorBot : Bool) (msgId : Nat) (ename : String)
    (eid : Option Nat) (cnt : Nat) (s : Store) : Store :=
  if reactorBot then s else updateReactionCount msgId ename eid cnt s

/-! ## The ingestion listener as a transition system

One constructor per event-store mutator reachable from the listener or the
sync path; `runOps` is the set of stores reachable from an empty database. -/

inductive BotOp
  | guild (g : InServer)
  | chan (ch : InChannel)
  | user (u : InUser)
  | message (m : InMsg)
  | msgEdit (mid : Nat) (authorBot : Bool) (content : String) (edited : Option Int)
  | msgDelete (mid : Nat) (authorBot : Bool)
  | reactionAdd (reactorBot : Bool) (msgId : Nat) (r : InReaction)
  | reactionRemove (reactorBot : Bool) (msgId : Nat) (ename : String)
      (eid : Option Nat) (cnt : Nat)

/-- Apply one listener event to the store (`store_channel` raising out of the
sync path leaves the store as it was, having written nothing). -/
def applyOp (s : Store) : BotOp → Store
  | .guild g => storeGuild g s
  | .chan ch =>
      match storeChannel ch s with
      | .ok s' => s'
      | .error _ => s
  | .user u => storeUser u s
  | .message m => onMessage m s
  | .msgEdit mid b c e => onMessageEdit mid b c e s
  | .msgDelete mid b => onMessageDelete mid b s
  | .reactionAdd b msgId r => onReactionAdd b msgId r s
  | .reactionRemove b msgId en eid c => onReactionRemove b msgId en eid c s

/-- The store after a sequence of listener events, starting empty. -/
def runOps (ops : List BotOp) : Store := ops.foldl applyOp Store.empty

/-! ## Create/edit/delete event sequences for one message id (claim C1) -/

/-- A lifecycle event for a fixed message id: the create carries the full
incoming message, edit/delete carry the author-bot flag the handlers check. -/
inductive MsgEvent
  | create (m : InMsg)
  | edit (authorBot : Bool) (content : String) (edited : Option Int)
  | delete (authorBot : Bool)
deriving DecidableEq

def applyMsgEvent (i : Nat) (s : Store) : MsgEvent → Store
  | .create m => onMessage m s
  | .edit b c e => onMessageEdit i b c e s
  | .delete b => onMessageDelete i b s

def applyMsgEvents (i : Nat) (s : Store) (es : List MsgEvent) : Store :=
  es.foldl (applyMsgEvent i) s

/-- Content of the stored row for id `i`, when present. -/
def contentAt (s : Store) (i : Nat) : Option String :=
  (findMessage s i).map (fun r => r.content)

/-- A create event's parent chain resolves: the channel row already exists, or
the server row exists and the channel kind is one `store_channel` stores
(otherwise `get_or_create_channel` raises and `store_message` drops the
event). -/
def resolvableChannel (s : Store) (ch : InChannel) : Prop :=
  (findChannel s ch.cid).isSome = true ∨
    ((findServer s ch.guild.gid).isSome = true ∧ storableKind ch.kind = true)

/-- Head condition for a well-formed delivery: events are not bot-authored,
a create arrives only while the id is absent (with a resolvable parent
chain), and an edit only while it is present. -/
def wfHead (i : Nat) (s : Store) : MsgEvent → Prop
  | .create m => m.mid = i ∧ m.author.bot = false ∧ findMessage s i = none ∧
      resolvableChannel s m.channel
  | .edit b _ _ => b = false ∧ (findMessage s i).isSome = true
  | .delete b => b = false

/-- Well-formed event sequence for id `i`, threading the store. -/
def wfEvents (i : Nat) : Store → List MsgEvent → Prop
  | _, [] => True
  | s, e :: es => wfHead i s e ∧ wfEvents i (applyMsgEvent i s e) es

/-! ## Voice session recorder state machine (claim C7)

`VoiceRecorder.__init__` holds four per-process dicts keyed by voice channel
id; we model them as association/id lists.  The Discord voice client and the
database session-create step are external effects that can raise, modelled by
boolean oracles at exactly the program points where the `try` body can
fail. -/

structure RecorderState where
  active_sessions : List (Nat × String)
  voice_clients : List Nat
  sinks : List Nat
  transcription_tasks : List Nat
deriving DecidableEq

def RecorderState.init : RecorderState := ⟨[], [], [], []⟩

/-- The channel ids currently recording. -/
def activeChannels (r : RecorderState) : List Nat := r.active_sessions.map Prod.fst

/-- `start_recording`: reject when the feature is disabled or the channel is
already active; otherwise connect (oracle `connectOk`; a raise there is caught
having mutated nothing), register the client and sink, create the session row
(oracle `sessionOk`; a raise there leaves the client/sink registered), then
register the session and launch the transcription task. -/
def startRecording (enabled connectOk sessionOk : Bool) (chId : Nat) (sid : String)
    (r : RecorderState) : RecorderState × Bool × String :=
  if enabled = false then (r, false, "Voice transcription is disabled")
  else if chId ∈ activeChannels r then
    (r, false, "Already recording in this channel")
  else if connectOk = false then (r, false, "Error starting recording: connect")
  else
    let r1 := { r with voice_clients := r.voice_clients ++ [chId],
                       sinks := r.sinks ++ [chId] }
    if sessionOk = false then (r1, false, "Error starting recording: session")
    else
      let r2 := { r1 with active_sessions := r1.active_sessions ++ [(chId, sid)],
                          transcription_tasks := r1.transcription_tasks ++ [chId] }
      (r2, true, "Recording started! I am now transcribing in real-time.")

/-- `stop_recording`: reject when the channel is not active; cancel and drop
the transcription task, then stop and disconnect the client (oracle
`disconnectOk`; a raise is caught with the task already dropped), drop the
client and sink, mark the session row completed and drop it. -/
def stopRecording (disconnectOk : Bool) (chId : Nat)
    (r : RecorderState) : RecorderState × Bool × String :=
  if chId ∉ activeChannels r then
    (r, false, "No active recording in this channel")
  else
    let r1 := { r with transcription_tasks := r.transcription_tasks.filter (fun c => c != chId) }
    if disconnectOk = false then (r1, false, "Error stopping recording: disconnect")
    else
      let r2 := { r1 with
        voice_clients := r1.voice_clients.filter (fun c => c != chId),
        sinks := r1.sinks.filter (fun c => c != chId),
        active_sessions := r1.active_sessions.filter (fun p => p.fst != chId) }
      (r2, true, "Recording stopped! Generating notes...")

/-- The recorder's start/stop interface as a transition system. -/
inductive RecOp
  | start (enabled connectOk sessionOk : Bool) (chId : Nat) (sid : String)
  | stop (disconnectOk : Bool) (chId : Nat)

def applyRecOp (r : RecorderState) : RecOp → RecorderState
  | .start en c se ch sid => (startRecording en c se ch sid r).1
  | .stop d ch => (stopRecording d ch r).1

/-- Recorder state reached from process start by a sequence of start/stop
requests. -/
def runRecOps (ops : List RecOp) : RecorderState := ops.foldl applyRecOp RecorderState.init

/-! ## One transcription cycle (claim C8)

Inside `_transcribe_audio_loop`, one cycle iterates over the speakers that
have buffered audio; transcribing and storing one speaker's buffer sits in a
per-speaker `try/except`, so a raise there is logged and the loop moves on.
The combined per-speaker outcome is an oracle: `.error` models a raise out of
the step, `.ok none` a skipped/silent buffer, `.ok (some t)` a stored
transcript line. -/

def cycleStep (oracle : Nat → Except String (Option String))
    (acc : List (Nat × String)) (u : Nat) : List (Nat × String) :=
  match oracle u with
  | .ok (some t) => acc ++ [(u, t)]
  | .ok none => acc
  | .error _ => acc

/-- The transcript rows stored by one cycle over the given speakers. -/
def transcribeCycle (oracle : Nat → Except String (Option String))
    (speakers : List Nat) : List (Nat × String) :=
  speakers.foldl (cycleStep oracle) []

/-! ## Voice sessions and notes generation (claims C3, C4)

Modelled from the spec: the `VoiceSession` and `VoiceTranscription` ORM
models are imported from `bot.models` but their declarations are not among
the provided sources; their fields follow spec section 3 (session id,
owning channel, status active/completed, start/end timestamps, optional
notes text, notes-generated flag; transcription rows ordered by timestamp)
and the field accesses in `discord_bot.py`. -/

structure VUserRef where
  display_name : String
  username : String
deriving DecidableEq

structure VSessionRow where
  session_id : String
  channel_id : Nat
  status : String
  ended_at : Option Int
  notes : Option String
  notes_generated : Bool
deriving DecidableEq

structure VTransRow where
  session_sid : String
  user : Option VUserRef
  text : String
  timestamp : Int
deriving DecidableEq

structure VStore where
  sessions : List VSessionRow
  transcriptions : List VTransRow
deriving DecidableEq

/-- Python's `a or b` on strings: the left operand unless it is falsy. -/
def pyOr (a b : String) : String := if a = "" then b else a

/-- Python's `s.strip()`: drop leading and trailing whitespace (spelled over
the character list so that it evaluates inside the kernel). -/
def pyStrip (s : String) : String :=
  ⟨((s.data.dropWhile Char.isWhitespace).reverse.dropWhile Char.isWhitespace).reverse⟩

/-- Python's `s[:n]` character slicing for a non-negative bound. -/
def pyTakeChars (n : Nat) (s : String) : String := ⟨s.data.take n⟩

/-- Python's `a or b` where `a` may be a nullable text column. -/
def optOr : Option String → String → String
  | none, d => d
  | some a, d => pyOr a d

/-- Timestamp rendering (`strftime`); the exact text never matters to a
claim, only that it is a function of the timestamp. -/
def fmtTime (t : Int) : String := toString t

/-- One `"[time] name: text"` transcript line of `generate_notes`
(`trans.user.display_name or trans.user.username if trans.user else
"Unknown"`). -/
def transLine (t : VTransRow) : String :=
  let name := match t.user with
    | some u => pyOr u.display_name u.username
    | none => "Unknown"
  "[" ++ fmtTime t.timestamp ++ "] " ++ name ++ ": " ++ t.text

/-- Ascending-timestamp order used by `order_by('timestamp')`. -/
def vtLE (a b : VTransRow) : Prop := a.timestamp ≤ b.timestamp

instance : DecidableRel vtLE :=
  fun a b => inferInstanceAs (Decidable (a.timestamp ≤ b.timestamp))

instance : IsTotal VTransRow vtLE := ⟨fun a b => le_total a.timestamp b.timestamp⟩

instance : IsTrans VTransRow vtLE := ⟨fun _ _ _ h1 h2 => le_trans h1 h2⟩

/-- `VoiceSession.objects.get(session_id=sid, status='completed')`. -/
def findSessionCompleted (vs : VStore) (sid : String) : Option VSessionRow :=
  vs.sessions.find? (fun r => r.session_id == sid && r.status == "completed")

/-- `_generate_structured_notes`: without an API key return a fixed warning
string (no call); otherwise call the model on the transcript truncated to
15000 characters (`api` oracle, `.error` modelling a raised API exception,
which the broad `except` turns into an error string).  The second component
counts external calls performed. -/
def generateStructuredNotes (keySet : Bool) (api : String → Except String String)
    (transcript : String) (_segmentCount : Nat) : String × Nat :=
  if keySet = false then
    ("OpenAI API key not configured. Cannot generate structured notes.", 0)
  else
    match api (pyTakeChars 15000 transcript) with
    | .ok content => (pyStrip content, 1)
    | .error e => ("Error generating notes: " ++ e, 1)

/-- `VoiceRecorder.generate_notes`: refuse when no completed session matches;
return the cached text when the generated flag is set; refuse when the
session has no transcription rows; otherwise build the timestamp-ordered
transcript, generate notes, persist them onto the session and set the flag.
Returns (store, (success, text), external-call count). -/
def generateNotes (keySet : Bool) (api : String → Except String String)
    (vs : VStore) (sid : String) : VStore × (Bool × String) × Nat :=
  match findSessionCompleted vs sid with
  | none => (vs, (false, "Session not found or not completed"), 0)
  | some sess =>
      if sess.notes_generated then
        (vs, (true, optOr sess.notes "Notes already generated"), 0)
      else
        let trans := List.insertionSort vtLE
          (vs.transcriptions.filter (fun t => t.session_sid == sid))
        if trans.isEmpty then
          (vs, (false, "No transcriptions found for this session"), 0)
        else
          let transcript := String.intercalate "\n" (trans.map transLine)
          let res := generateStructuredNotes keySet api transcript trans.length
          ({ vs with sessions := (updateFirst
              (fun r => r.session_id == sid && r.status == "completed")
              (fun r => { r with notes := some res.1, notes_generated := true })
              vs.sessions) },
            (true, res.1), res.2)

/-! ## Summary command (claims C5, C10) -/

/-- `msg.author.is_bot`, resolved through the author foreign key (the join
`exclude(author__is_bot=True)` performs). -/
def msgAuthorBot (s : Store) (m : MessageRow) : Bool :=
  match findUser s m.author_id with
  | some u => u.is_bot
  | none => false

/-- `msg.author.display_name or msg.author.username`. -/
def authorName (s : Store) (m : MessageRow) : String :=
  match findUser s m.author_id with
  | some u => pyOr u.display_name u.username
  | none => ""

/-- Most-recent-first order used by `order_by('-timestamp')`. -/
def msgRecentFirst (a b : MessageRow) : Prop := b.timestamp ≤ a.timestamp

instance : DecidableRel msgRecentFirst :=
  fun a b => inferInstanceAs (Decidable (b.timestamp ≤ a.timestamp))

instance : IsTotal MessageRow msgRecentFirst := ⟨fun a b => le_total b.timestamp a.timestamp⟩

instance : IsTrans MessageRow msgRecentFirst := ⟨fun _ _ _ h1 h2 => le_trans h2 h1⟩

/-- Python slice `l[:k]` for a possibly negative `k`. -/
def pyTake (k : Int) (l : List α) : List α :=
  if 0 ≤ k then l.take k.toNat else l.take (l.length - (-k).toNat)

/-- The queryset of `get_messages`: this channel's messages, bot authors
excluded, newest first, optionally cut off by time, sliced to `limit` when
that is truthy and to 50 otherwise. -/
def getMessages (s : Store) (ch : ChannelRow) (cutoff : Option Int)
    (limit : Option Int) : List MessageRow :=
  let base := s.messages.filter
    (fun m => m.channel_id == ch.channel_id && !(msgAuthorBot s m))
  let ranged := match cutoff with
    | none => base
    | some t => base.filter (fun m => decide (t ≤ m.timestamp))
  let sorted := List.insertionSort msgRecentFirst ranged
  match limit with
  | some k => if k ≠ 0 then pyTake k sorted else sorted.take 50
  | none => sorted.take 50

/-- `if hours: time_cutoff = now - timedelta(hours=hours) else None`
(`hours == 0` is falsy). -/
def summaryCutoff (now : Int) (hours : Option Int) : Option Int :=
  match hours with
  | none => none
  | some h => if h ≠ 0 then some (now - h * 3600) else none

/-- Argument parsing of `summary_command`: up to two `int(...)` conversions,
a failure of either producing a usage reply. -/
def parseSummaryArgs : List String → Except Unit (Option Int × Option Int)
  | [] => .ok (none, none)
  | [a] =>
      match a.toInt? with
      | some h => .ok (some h, none)
      | none => .error ()
  | a :: b :: _ =>
      match a.toInt? with
      | none => .error ()
      | some h =>
          match b.toInt? with
          | some l => .ok (some h, some l)
          | none => .error ()

/-- The distinguishable replies of `summary_command`. -/
inductive SummaryReply
  | usageError
  | channelError
  | noMessages
  | onlyMedia
  | recap (text : String) (footerCount : Nat)
deriving DecidableEq

/-- The transcript lines: the selected window replayed in chronological order
(`reversed(messages)`), keeping only messages whose stripped content is
non-empty. -/
def conversationLines (s : Store) (msgs : List MessageRow) : List String :=
  msgs.reverse.filterMap (fun m =>
    if pyStrip m.content = "" then none
    else some ("[" ++ fmtTime m.timestamp ++ "] " ++ authorName s m ++ ": "
      ++ pyStrip m.content))

/-- `len(unique_authors)`: distinct author display strings over the whole
window (empty-content messages included). -/
def uniqueAuthorCount (s : Store) (msgs : List MessageRow) : Nat :=
  (msgs.reverse.map (authorName s)).dedup.length

/-- `summary_command` after argument parsing: resolve the channel (a raise is
caught into an error reply), fetch the window, answer `noMessages` on an
empty window and `onlyMedia` on an all-blank window, otherwise call the
summary generator once.  Returns (store, reply, generator-call count). -/
def summaryRun (gen : String → Nat → Nat → String) (s : Store) (inCh : InChannel)
    (now : Int) (hours limit : Option Int) : Store × SummaryReply × Nat :=
  match getOrCreateChannel inCh s with
  | .error _ => (s, .channelError, 0)
  | .ok (s', ch) =>
      let msgs := getMessages s' ch (summaryCutoff now hours) limit
      if msgs.isEmpty then (s', .noMessages, 0)
      else
        let lines := conversationLines s' msgs
        if lines.isEmpty then (s', .onlyMedia, 0)
        else
          let convo := String.intercalate "\n" lines
          (s', .recap (gen convo msgs.length (uniqueAuthorCount s' msgs)) msgs.length, 1)

/-- The whole command: parse `*args`, then run. -/
def summaryCommand (gen : String → Nat → Nat → String) (s : Store) (inCh : InChannel)
    (now : Int) (args : List String) : Store × SummaryReply × Nat :=
  match parseSummaryArgs args with
  | .error _ => (s, .usageError, 0)
  | .ok (hours, limit) => summaryRun gen s inCh now hours limit

/-! ## Backfill job (claim C6) -/

/-- `DiscordMessage.objects.filter(channel=.., timestamp__gte=cutoff).exists()`. -/
def hasRecentMessage (s : Store) (ch : ChannelRow) (cutoff : Int) : Bool :=
  s.messages.any (fun m => m.channel_id == ch.channel_id && decide (cutoff ≤ m.timestamp))

/-- The `skip_existing` filter of `get_channels_to_backfill`: drop every
channel that already has a message inside the lookback window. -/
def channelsToBackfill (s : Store) (channels : List ChannelRow)
    (skipExisting : Bool) (cutoff : Int) : List ChannelRow :=
  if skipExisting then channels.filter (fun ch => !(hasRecentMessage s ch cutoff))
  else channels

/-- `backfill_channel`: snapshot the ids already stored for the channel, then
walk the fetched history oldest-first, skipping already-present ids and bot
authors and storing the rest through `store_message` (the per-message counter
increments whether or not `store_message` swallowed an error). -/
def backfillChannel (s : Store) (ch : ChannelRow) (history : List InMsg) : Store × Nat :=
  let existing := (s.messages.filter (fun m => m.channel_id == ch.channel_id)).map
    (fun m => m.message_id)
  history.foldl (fun acc m =>
    if m.mid ∈ existing then acc
    else if m.author.bot then acc
    else (storeMessage m acc.1, acc.2 + 1)) (s, 0)

/-- The backfill run over the selected channels; `hist` is the platform's
per-channel history (already windowed by `after=cutoff`). -/
def runBackfill (s : Store) (channels : List ChannelRow) (hist : Nat → List InMsg)
    (skipExisting : Bool) (cutoff : Int) : Store × Nat :=
  (channelsToBackfill s channels skipExisting cutoff).foldl
    (fun acc ch =>
      let res := backfillChannel acc.1 ch (hist ch.channel_id)
      (res.1, acc.2 + res.2)) (s, 0)

/-! ## Helper lemmas: single-row updates -/

theorem updateFirst_map {α β : Type _} (p : α → Bool) (f : α → α) (g : α → β)
    (hg : ∀ x, g (f x) = g x) (l : List α) : (updateFirst p f l).map g = l.map g := by
  induction l with
  | nil => rfl
  | cons x xs ih =>
      simp only [updateFirst]
      split <;> simp [hg, ih]

theorem find?_updateFirst {α : Type _} (p : α → Bool) (f : α → α)
    (hf : ∀ x, p (f x) = p x) (l : List α) :
    (updateFirst p f l).find? p = (l.find? p).map f := by
  induction l with
  | nil => rfl
  | cons x xs ih =>
      simp only [updateFirst]
      split
      · next h => simp [List.find?_cons_of_pos, h, hf]
      · next h =>
          rw [List.find?_cons_of_neg _ (by simpa using h),
            List.find?_cons_of_neg _ (by simpa using h), ih]

theorem mem_updateFirst {α : Type _} {y : α} (p : α → Bool) (f : α → α) (l : List α)
    (hy : y ∈ updateFirst p f l) : ∃ x ∈ l, y = x ∨ y = f x := by
  induction l with
  | nil => cases hy
  | cons x xs ih =>
      simp only [updateFirst] at hy
      split at hy
      · rcases List.mem_cons.mp hy with h | h
        · exact ⟨x, List.mem_cons_self x xs, Or.inr h⟩
        · exact ⟨y, List.mem_cons_of_mem x h, Or.inl rfl⟩
      · rcases List.mem_cons.mp hy with h | h
        · exact ⟨x, List.mem_cons_self x xs, Or.inl h⟩
        · rcases ih h with ⟨x', hx', hor⟩
          exact ⟨x', List.mem_cons_of_mem x hx', hor⟩

theorem filter_updateFirst {α : Type _} (p : α → Bool) (f : α → α)
    (hf : ∀ x, p (f x) = p x) (l : List α) :
    (updateFirst p f l).filter p = (l.filter p).modifyHead f := by
  induction l with
  | nil => rfl
  | cons x xs ih =>
      simp only [updateFirst]
      split
      · next h => simp [List.filter_cons, h, hf]
      · next h => simp [List.filter_cons, h, ih]

/-! ## Helper lemmas: id presence and referential integrity -/

def chanIds (s : Store) : List Nat := s.channels.map (fun c => c.channel_id)

def userIds (s : Store) : List Nat := s.users.map (fun u => u.user_id)

def msgIds (s : Store) : List Nat := s.messages.map (fun m => m.message_id)

def hasChannelId (s : Store) (i : Nat) : Prop := i ∈ chanIds s

def hasUserId (s : Store) (i : Nat) : Prop := i ∈ userIds s

def hasMessageId (s : Store) (i : Nat) : Prop := i ∈ msgIds s

/-- The §3 invariant: every stored message resolves to a stored channel and a
stored user, and every stored reaction resolves to a stored message. -/
def refIntegrity (s : Store) : Prop :=
  (∀ m ∈ s.messages, hasChannelId s m.channel_id ∧ hasUserId s m.author_id) ∧
  (∀ r ∈ s.reactions, hasMessageId s r.message_id)

/-! ## Helper lemmas: projections of the storage operations -/

theorem chanIds_set (s : Store) (l : List ChannelRow) :
    chanIds { s with channels := l } = l.map (fun c => c.channel_id) := rfl

theorem userIds_set (s : Store) (l : List UserRow) :
    userIds { s with users := l } = l.map (fun u => u.user_id) := rfl

theorem msgIds_set (s : Store) (l : List MessageRow) (r : List ReactionRow) :
    msgIds { s with messages := l, reactions := r } = l.map (fun m => m.message_id) := rfl

theorem storeGuild_rest (g : InServer) (s : Store) :
    (storeGuild g s).channels = s.channels ∧ (storeGuild g s).users = s.users ∧
    (storeGuild g s).messages = s.messages ∧ (storeGuild g s).reactions = s.reactions := by
  unfold storeGuild
  split
  · exact ⟨rfl, rfl, rfl, rfl⟩
  · split <;> exact ⟨rfl, rfl, rfl, rfl⟩

theorem storeChannel_ok_proj {ch : InChannel} {s s' : Store}
    (h : storeChannel ch s = .ok s') :
    s'.users = s.users ∧ s'.messages = s.messages ∧ s'.reactions = s.reactions ∧
    chanIds s ⊆ chanIds s' := by
  unfold storeChannel at h
  split at h
  · cases h
    exact ⟨rfl, rfl, rfl, fun i hi => hi⟩
  · split at h
    · cases h
    · split at h
      · cases h
        refine ⟨rfl, rfl, rfl, fun i hi => ?_⟩
        simp only [chanIds, List.map_append]
        exact List.mem_append_left _ hi
      · split at h <;> cases h
        · refine ⟨rfl, rfl, rfl, fun i hi => ?_⟩
          rw [chanIds_set, updateFirst_map (fun (r : ChannelRow) => r.channel_id == ch.cid)
            (fun (r : ChannelRow) => { r with name := ch.cname, channel_type := ch.kind.typeName })
            (fun (c : ChannelRow) => c.channel_id) (fun x => rfl)]
          exact hi
        · exact ⟨rfl, rfl, rfl, fun i hi => hi⟩

theorem gocChannel_ok_proj {ch : InChannel} {s s' : Store} {row : ChannelRow}
    (h : getOrCreateChannel ch s = .ok (s', row)) :
    s'.users = s.users ∧ s'.messages = s.messages ∧ s'.reactions = s.reactions ∧
    chanIds s ⊆ chanIds s' ∧ row ∈ s'.channels ∧ row.channel_id = ch.cid := by
  unfold getOrCreateChannel at h
  split at h
  · next row' hfind =>
      cases h
      refine ⟨rfl, rfl, rfl, fun i hi => hi, List.mem_of_find?_eq_some hfind, ?_⟩
      simpa using List.find?_some hfind
  · next hfind =>
      split at h
      · cases h
      · next s₁ hsc =>
          split at h
          · next row' hfind₁ =>
              cases h
              rcases storeChannel_ok_proj hsc with ⟨hu, hm, hr, hsub⟩
              refine ⟨hu, hm, hr, hsub, List.mem_of_find?_eq_some hfind₁, ?_⟩
              simpa using List.find?_some hfind₁
          · cases h

theorem storeUser_rest (u : InUser) (s : Store) :
    (storeUser u s).channels = s.channels ∧ (storeUser u s).messages = s.messages ∧
    (storeUser u s).reactions = s.reactions ∧ userIds s ⊆ userIds (storeUser u s) := by
  unfold storeUser
  split
  · refine ⟨rfl, rfl, rfl, fun i hi => ?_⟩
    rw [userIds_set, List.map_append]
    exact List.mem_append_left _ hi
  · split
    · refine ⟨rfl, rfl, rfl, fun i hi => ?_⟩
      rw [userIds_set, updateFirst_map (fun (r : UserRow) => r.user_id == u.uid)
        (fun (r : UserRow) => { r with username := u.uname, display_name := u.display_name, avatar_url := u.avatar_url })
        (fun (x : UserRow) => x.user_id) (fun x => rfl)]
      exact hi
    · exact ⟨rfl, rfl, rfl, fun i hi => hi⟩

theorem gocUser_total (u : InUser) (s : Store) :
    ∃ s' row, getOrCreateUser u s = .ok (s', row) := by
  have hmain : ∀ l : List UserRow, l.find? (fun r => r.user_id == u.uid) = none →
      (l ++ [(⟨u.uid, u.uname, u.display_name,
        (if u.discriminator = "0" then "" else u.discriminator), u.avatar_url, u.bot⟩ :
          UserRow)]).find? (fun r => r.user_id == u.uid) =
      some ⟨u.uid, u.uname, u.display_name,
        (if u.discriminator = "0" then "" else u.discriminator), u.avatar_url, u.bot⟩ := by
    intro l hl
    rw [List.find?_append, hl]
    simp
  cases hfind : findUser s u.uid with
  | some row => exact ⟨s, row, by simp only [getOrCreateUser, hfind]⟩
  | none =>
      have hs : storeUser u s = { s with users :=
          s.users ++ [⟨u.uid, u.uname, u.display_name,
            (if u.discriminator = "0" then "" else u.discriminator), u.avatar_url, u.bot⟩] } := by
        unfold storeUser
        rw [hfind]
      have hfind₂ : findUser (storeUser u s) u.uid =
          some ⟨u.uid, u.uname, u.display_name,
            (if u.discriminator = "0" then "" else u.discriminator), u.avatar_url, u.bot⟩ := by
        rw [hs]
        exact hmain s.users hfind
      refine ⟨storeUser u s, ⟨u.uid, u.uname, u.display_name,
        (if u.discriminator = "0" then "" else u.discriminator), u.avatar_url, u.bot⟩, ?_⟩
      simp only [getOrCreateUser, hfind, hfind₂]

theorem gocUser_ok_proj {u : InUser} {s s' : Store} {row : UserRow}
    (h : getOrCreateUser u s = .ok (s', row)) :
    s'.channels = s.channels ∧ s'.messages = s.messages ∧ s'.reactions = s.reactions ∧
    userIds s ⊆ userIds s' ∧ row ∈ s'.users ∧ row.user_id = u.uid := by
  unfold getOrCreateUser at h
  split at h
  · next row' hfind =>
      cases h
      refine ⟨rfl, rfl, rfl, fun i hi => hi, List.mem_of_find?_eq_some hfind, ?_⟩
      simpa using List.find?_some hfind
  · next hfind =>
      split at h
      · next row' hfind₁ =>
          cases h
          rcases storeUser_rest u s with ⟨hc, hm, hr, hsub⟩
          exact ⟨hc, hm, hr, hsub, List.mem_of_find?_eq_some hfind₁, by
            simpa using List.find?_some hfind₁⟩
      · cases h

theorem storeReaction_rest (msgId : Nat) (en : String) (eid : Option Nat) (cnt : Nat)
    (s : Store) :
    (storeReaction msgId en eid cnt s).channels = s.channels ∧
    (storeReaction msgId en eid cnt s).users = s.users ∧
    (storeReaction msgId en eid cnt s).messages = s.messages := by
  unfold storeReaction
  split
  · exact ⟨rfl, rfl, rfl⟩
  · split
    · exact ⟨rfl, rfl, rfl⟩
    · split <;> exact ⟨rfl, rfl, rfl⟩

theorem foldReactions_rest (mid : Nat) (l : List InReaction) : ∀ st : Store,
    ((l.foldl (fun st r => storeReaction mid r.emoji_name r.emoji_id r.count st) st).channels
        = st.channels) ∧
    ((l.foldl (fun st r => storeReaction mid r.emoji_name r.emoji_id r.count st) st).users
        = st.users) ∧
    ((l.foldl (fun st r => storeReaction mid r.emoji_name r.emoji_id r.count st) st).messages
        = st.messages) := by
  induction l with
  | nil => exact fun st => ⟨rfl, rfl, rfl⟩
  | cons x xs ih =>
      intro st
      have h1 := storeReaction_rest mid x.emoji_name x.emoji_id x.count st
      have h2 := ih (storeReaction mid x.emoji_name x.emoji_id x.count st)
      simp only [List.foldl_cons]
      exact ⟨h2.1.trans h1.1, h2.2.1.trans h1.2.1, h2.2.2.trans h1.2.2⟩

theorem findMessage_congr {s t : Store} (h : s.messages = t.messages) (i : Nat) :
    findMessage s i = findMessage t i := by
  unfold findMessage
  rw [h]

/-- `store_message` either leaves the message table unchanged (the id was
present, or the parent chain raised) or appends exactly one fresh row with
the event's id. -/
theorem storeMessage_messages (m : InMsg) (s : Store) :
    (storeMessage m s).messages = s.messages ∨
    (findMessage s m.mid = none ∧ ∃ r : MessageRow, r.message_id = m.mid ∧
      (storeMessage m s).messages = s.messages ++ [r]) := by
  unfold storeMessage
  split
  · left; rfl
  · next s1 ch hch =>
      rcases gocChannel_ok_proj hch with ⟨_, hm1, _, _, _, _⟩
      split
      · left; exact hm1
      · next s2 u hu =>
          rcases gocUser_ok_proj hu with ⟨_, hm2, _, _, _, _⟩
          split
          · next hfm =>
              left
              exact ((foldReactions_rest m.mid m.reactions s2).2.2).trans (hm2.trans hm1)
          · next hfm =>
              right
              refine ⟨?_, mkMessageRow m ch.channel_id u.user_id, rfl, ?_⟩
              · rw [← findMessage_congr (hm2.trans hm1) m.mid]
                exact hfm
              · have := (foldReactions_rest m.mid m.reactions
                  { s2 with messages := s2.messages ++ [mkMessageRow m ch.channel_id u.user_id] }).2.2
                rw [this]
                simp only [hm2, hm1]

/-- With a resolvable parent chain, `get_or_create_channel` succeeds. -/
theorem gocChannel_of_resolvable {ch : InChannel} {s : Store}
    (hres : resolvableChannel s ch) :
    ∃ s' row, getOrCreateChannel ch s = .ok (s', row) := by
  cases hfc : findChannel s ch.cid with
  | some row => exact ⟨s, row, by simp only [getOrCreateChannel, hfc]⟩
  | none =>
      rcases hres with hsome | ⟨hsrv, hkind⟩
      · rw [hfc] at hsome
        simp at hsome
      · rcases Option.isSome_iff_exists.mp hsrv with ⟨srv, hsrv'⟩
        have hsc : storeChannel ch s = .ok { s with channels :=
            s.channels ++ [⟨ch.cid, srv.server_id, ch.cname, ch.kind.typeName⟩] } := by
          unfold storeChannel
          rw [hsrv', hfc]
          simp [hkind]
        have hfc₂ : findChannel { s with channels :=
            s.channels ++ [⟨ch.cid, srv.server_id, ch.cname, ch.kind.typeName⟩] } ch.cid =
            some ⟨ch.cid, srv.server_id, ch.cname, ch.kind.typeName⟩ := by
          unfold findChannel at hfc ⊢
          rw [List.find?_append, hfc]
          simp
        refine ⟨{ s with channels :=
            s.channels ++ [⟨ch.cid, srv.server_id, ch.cname, ch.kind.typeName⟩] },
          ⟨ch.cid, srv.server_id, ch.cname, ch.kind.typeName⟩, ?_⟩
        simp only [getOrCreateChannel, hfc, hsc, hfc₂]

/-! ## Helper lemmas: the C1 one-step content equations -/

/-- The specified effect of one event on the stored content; it depends only
on the event itself. -/
def stepSpec (_acc : Option String) : MsgEvent → Option String
  | .create m => some m.content
  | .edit _ c' _ => some c'
  | .delete _ => none

theorem stepSpec_acc (e : MsgEvent) (c c' : Option String) : stepSpec c e = stepSpec c' e := by
  cases e <;> rfl

theorem contentAt_create {m : InMsg} {s : Store} (hab : findMessage s m.mid = none)
    (hres : resolvableChannel s m.channel) :
    contentAt (storeMessage m s) m.mid = some m.content := by
  rcases gocChannel_of_resolvable hres with ⟨s1, ch, hch⟩
  rcases gocChannel_ok_proj hch with ⟨_, hm1, _, _, _, _⟩
  rcases gocUser_total m.author s1 with ⟨s2, u, hu⟩
  rcases gocUser_ok_proj hu with ⟨_, hm2, _, _, _, _⟩
  have hfm2 : findMessage s2 m.mid = none := by
    rw [findMessage_congr (hm2.trans hm1) m.mid]
    exact hab
  unfold storeMessage
  simp only [hch, hu, hfm2]
  unfold contentAt
  have hmsgs := (foldReactions_rest m.mid m.reactions
    { s2 with messages := s2.messages ++ [mkMessageRow m ch.channel_id u.user_id] }).2.2
  rw [findMessage_congr hmsgs m.mid]
  have : findMessage { s2 with messages :=
      s2.messages ++ [mkMessageRow m ch.channel_id u.user_id] } m.mid =
      some (mkMessageRow m ch.channel_id u.user_id) := by
    unfold findMessage at hfm2 ⊢
    rw [List.find?_append, hfm2]
    simp [mkMessageRow]
  rw [this]
  rfl

theorem contentAt_edit {i : Nat} {s : Store} {c : String} {e : Option Int}
    (hpres : (findMessage s i).isSome = true) :
    contentAt (onMessageEdit i false c e s) i = some c := by
  rcases Option.isSome_iff_exists.mp hpres with ⟨row, hrow⟩
  unfold onMessageEdit
  rw [if_neg (by simp)]
  rw [hrow]
  unfold contentAt findMessage
  have := find?_updateFirst (fun (r : MessageRow) => r.message_id == i)
    (fun (r : MessageRow) => { r with content := c, edited_timestamp := e })
    (fun x => rfl) s.messages
  rw [this]
  unfold findMessage at hrow
  rw [hrow]
  rfl

theorem findMessage_delete (i : Nat) (s : Store) :
    findMessage (onMessageDelete i false s) i = none := by
  unfold onMessageDelete
  rw [if_neg (by simp)]
  unfold findMessage
  rw [List.find?_eq_none]
  intro x hx
  have := (List.mem_filter.mp hx).2
  simpa using this

theorem contentAt_step {i : Nat} {s : Store} {e : MsgEvent} (h : wfHead i s e) :
    contentAt (applyMsgEvent i s e) i = stepSpec (contentAt s i) e := by
  cases e with
  | create m =>
      rcases h with ⟨hmid, hbot, hab, hres⟩
      subst hmid
      simp only [applyMsgEvent, onMessage, hbot, if_false, stepSpec]
      exact contentAt_create hab hres
  | edit b c ed =>
      rcases h with ⟨hb, hpres⟩
      subst hb
      exact contentAt_edit hpres
  | delete b =>
      have hb : b = false := h
      subst hb
      simp only [applyMsgEvent, stepSpec, contentAt, findMessage_delete, Option.map_none']

theorem contentAt_applyMsgEvents (i : Nat) (es : List MsgEvent) : ∀ s : Store,
    wfEvents i s es →
    contentAt (applyMsgEvents i s es) i = es.foldl stepSpec (contentAt s i) := by
  induction es with
  | nil => exact fun s _ => rfl
  | cons e es ih =>
      intro s h
      rcases h with ⟨hhead, htail⟩
      have h1 : applyMsgEvents i s (e :: es) = applyMsgEvents i (applyMsgEvent i s e) es := rfl
      rw [h1, ih _ htail, contentAt_step hhead, List.foldl_cons]

theorem foldl_stepSpec_getLast (es : List MsgEvent) (e : MsgEvent) (c : Option String)
    (h : es.getLast? = some e) : es.foldl stepSpec c = stepSpec none e := by
  rcases List.eq_nil_or_concat es with rfl | ⟨l, a, rfl⟩
  · cases h
  · rw [List.concat_eq_append] at h ⊢
    rw [List.getLast?_concat] at h
    injection h with h
    subst h
    rw [List.foldl_concat]
    exact stepSpec_acc _ _ _

/-! ## Concrete fixtures shared by witnesses and counterexamples -/

def fixServer : InServer := ⟨1, "guild"⟩

def fixChannel : InChannel := ⟨10, fixServer, "general", .text⟩

def fixUser : InUser := ⟨100, "alice", "Alice", "0", "", false⟩

def fixMsgA : InMsg := ⟨1000, fixChannel, fixUser, "a", 5, none, false, 0, 0, []⟩

def fixMsgB : InMsg := ⟨1000, fixChannel, fixUser, "b", 6, none, false, 0, 0, []⟩

/-- A store holding just the parent guild row, as `sync_guild_data` would
leave it before any message traffic. -/
def fixStore : Store := runOps [.guild fixServer]

def fixMsgBlank : InMsg := ⟨1001, fixChannel, fixUser, "   ", 5, none, false, 1, 0, []⟩

def fixMsgText : InMsg := ⟨1002, fixChannel, fixUser, "hey", 6, none, false, 0, 0, []⟩

/-- Store with channel, user and one text message, built through the listener. -/
def fixStoreMsg : Store :=
  runOps [.guild fixServer, .chan fixChannel, .user fixUser, .message fixMsgText]

/-! ## Claim C1 -/

/-- C1 (amended): for a well-formed delivery of create/edit/delete events for
one message id — events not bot-authored, every create arriving while the id
is absent with a resolvable parent chain, every edit while it is present —
the stored row's content after the sequence equals the content carried by the
last event when that is a create or an edit (the last non-delete event
applied), and the row is absent when the last event is a delete. -/
theorem message_lifecycle_last_event (i : Nat) (s : Store) (es : List MsgEvent)
    (hwf : wfEvents i s es) :
    (∀ m, es.getLast? = some (.create m) →
        contentAt (applyMsgEvents i s es) i = some m.content) ∧
    (∀ b c ed, es.getLast? = some (.edit b c ed) →
        contentAt (applyMsgEvents i s es) i = some c) ∧
    (∀ b, es.getLast? = some (.delete b) →
        findMessage (applyMsgEvents i s es) i = none) := by
  have hmain := contentAt_applyMsgEvents i es s hwf
  refine ⟨?_, ?_, ?_⟩
  · intro m hl
    rw [hmain, foldl_stepSpec_getLast es _ _ hl]
    rfl
  · intro b c ed hl
    rw [hmain, foldl_stepSpec_getLast es _ _ hl]
    rfl
  · intro b hl
    have hnone : contentAt (applyMsgEvents i s es) i = none := by
      rw [hmain, foldl_stepSpec_getLast es _ _ hl]
      rfl
    unfold contentAt at hnone
    exact Option.map_eq_none'.mp hnone

/-- C1 witness: a create followed by an edit, on a store holding the guild
row; the hypotheses hold at this input and the stored content is the edit's. -/
theorem message_lifecycle_last_event_witness :
    wfEvents 1000 fixStore [.create fixMsgA, .edit false "b2" (some 7)] ∧
    contentAt (applyMsgEvents 1000 fixStore [.create fixMsgA, .edit false "b2" (some 7)])
      1000 = some "b2" := by
  have hwf : wfEvents 1000 fixStore [.create fixMsgA, .edit false "b2" (some 7)] := by
    refine ⟨⟨rfl, rfl, by decide, Or.inr ⟨by decide, by decide⟩⟩, ⟨rfl, by decide⟩, trivial⟩
  exact ⟨hwf,
    (message_lifecycle_last_event 1000 fixStore _ hwf).2.1 false "b2" (some 7) rfl⟩

/-- C1 counterexample: the claim quantifies over every sequence of events,
but for the sequence of two create events carrying contents "a" then "b"
(a duplicate delivery of one message id), the last non-delete event applied
carries "b" while the stored row's content is "a": `get_or_create` leaves an
existing row untouched. -/
theorem message_lifecycle_last_event_cex :
    contentAt (applyMsgEvents 1000 fixStore [.create fixMsgA, .create fixMsgB]) 1000
      = some "a" ∧
    ¬ contentAt (applyMsgEvents 1000 fixStore [.create fixMsgA, .create fixMsgB]) 1000
      = some "b" := by decide

/-! ## Claim C2 -/

/-- One `store_reaction` event on a stored message, with the key unique,
leaves exactly one key row holding the new count. -/
theorem storeReaction_filter_key (s : Store) (msgId : Nat) (en : String)
    (eid : Option Nat) (cnt : Nat) {mrow : MessageRow}
    (hm : findMessage s msgId = some mrow)
    (huniq : (s.reactions.filter (reactionKey msgId en eid)).length ≤ 1) :
    ((storeReaction msgId en eid cnt s).reactions.filter (reactionKey msgId en eid))
      = [⟨msgId, en, eid, cnt⟩] := by
  rcases Nat.le_one_iff_eq_zero_or_eq_one.mp huniq with hlen | hlen
  · have hemp : s.reactions.filter (reactionKey msgId en eid) = [] :=
      List.length_eq_zero.mp hlen
    unfold storeReaction
    simp only [hm]
    rw [if_pos hlen]
    show List.filter (reactionKey msgId en eid)
      (s.reactions ++ [⟨msgId, en, eid, cnt⟩]) = [⟨msgId, en, eid, cnt⟩]
    rw [List.filter_append, hemp]
    simp [reactionKey]
  · rcases List.length_eq_one.mp hlen with ⟨r, hr⟩
    have hrmem : r ∈ s.reactions.filter (reactionKey msgId en eid) := by
      rw [hr]; exact List.mem_cons_self r []
    have hrkey : reactionKey msgId en eid r = true := (List.mem_filter.mp hrmem).2
    unfold storeReaction
    simp only [hm]
    rw [if_neg (by rw [hlen]; simp), if_pos hlen]
    show List.filter (reactionKey msgId en eid)
      (updateFirst (reactionKey msgId en eid)
        (fun r => { r with count := cnt }) s.reactions) = [⟨msgId, en, eid, cnt⟩]
    rw [filter_updateFirst (reactionKey msgId en eid)
      (fun (r : ReactionRow) => { r with count := cnt }) (fun x => rfl), hr]
    rcases r with ⟨rm, re, ri, rc⟩
    unfold reactionKey at hrkey
    simp only [Bool.and_eq_true, beq_iff_eq] at hrkey
    rcases hrkey with ⟨⟨h1, h2⟩, h3⟩
    subst h1
    subst h2
    subst h3
    rfl

/-- C2: reaction upsert is idempotent on the key (message, emoji name, emoji
id): on a stored message whose key is unique (the declared
`unique_together`), applying the same reaction-count event twice leaves
exactly one reaction row for that key, holding the latest count, never two
rows. -/
theorem reaction_upsert_idempotent (s : Store) (msgId : Nat) (en : String)
    (eid : Option Nat) (cnt : Nat) (mrow : MessageRow)
    (hm : findMessage s msgId = some mrow)
    (huniq : (s.reactions.filter (reactionKey msgId en eid)).length ≤ 1) :
    ((storeReaction msgId en eid cnt (storeReaction msgId en eid cnt s)).reactions.filter
        (reactionKey msgId en eid)) = [⟨msgId, en, eid, cnt⟩] := by
  have h1 := storeReaction_filter_key s msgId en eid cnt hm huniq
  have hmsg : findMessage (storeReaction msgId en eid cnt s) msgId = some mrow := by
    rw [findMessage_congr (storeReaction_rest msgId en eid cnt s).2.2 msgId]
    exact hm
  have huniq₂ : ((storeReaction msgId en eid cnt s).reactions.filter
      (reactionKey msgId en eid)).length ≤ 1 := by
    rw [h1]
    simp
  exact storeReaction_filter_key _ msgId en eid cnt hmsg huniq₂

/-- C2 witness: on a store with one stored message and no reactions, two
identical reaction events leave one row with the latest count. -/
theorem reaction_upsert_idempotent_witness :
    findMessage fixStoreMsg 1002 = some (mkMessageRow fixMsgText 10 100) ∧
    ((fixStoreMsg.reactions.filter (reactionKey 1002 "smile" none)).length ≤ 1) ∧
    ((storeReaction 1002 "smile" none 3 (storeReaction 1002 "smile" none 3
        fixStoreMsg)).reactions.filter (reactionKey 1002 "smile" none))
      = [⟨1002, "smile", none, 3⟩] := by
  refine ⟨by decide, by decide, ?_⟩
  exact reaction_upsert_idempotent fixStoreMsg 1002 "smile" none 3
    (mkMessageRow fixMsgText 10 100) (by decide) (by decide)

/-! ## Claims C3 and C4 -/

def fixVSession : VSessionRow := ⟨"s1", 10, "completed", some 20, none, false⟩

def fixVTrans : VTransRow := ⟨"s1", none, "hello", 5⟩

def fixVStore : VStore := ⟨[fixVSession], [fixVTrans]⟩

def fixVStoreNoTrans : VStore := ⟨[fixVSession], []⟩

/-- A model reply whose content strips to the empty string. -/
def apiEmpty : String → Except String String := fun _ => .ok ""

/-- A model call that raises. -/
def apiBoom : String → Except String String := fun _ => .error "boom"

/-- A model call that succeeds with fixed text. -/
def apiOk : String → Except String String := fun _ => .ok "NOTES"

/-- The transcript `generate_notes` concatenates for a session. -/
def sessionTranscript (vs : VStore) (sid : String) : String :=
  String.intercalate "\n" ((List.insertionSort vtLE
    (vs.transcriptions.filter (fun t => t.session_sid == sid))).map transLine)

theorem generateStructuredNotes_calls (keySet : Bool) (api : String → Except String String)
    (transcript : String) (n : Nat) :
    (generateStructuredNotes keySet api transcript n).2 ≤ 1 := by
  unfold generateStructuredNotes
  cases keySet
  · simp
  · simp only [Bool.true_eq_false, if_false]
    split <;> simp

theorem optOr_some (a d : String) : optOr (some a) d = if a = "" then d else a := rfl

/-- The session predicate of `generate_notes` is blind to the fields the
update writes, so the update is found again afterwards. -/
theorem findSessionCompleted_update (vs : VStore) (sid : String) (notes : String) :
    findSessionCompleted { vs with sessions := (updateFirst
        (fun r => r.session_id == sid && r.status == "completed")
        (fun r => { r with notes := some notes, notes_generated := true })
        vs.sessions) } sid =
    (findSessionCompleted vs sid).map
      (fun r => { r with notes := some notes, notes_generated := true }) := by
  unfold findSessionCompleted
  exact find?_updateFirst
    (fun (r : VSessionRow) => r.session_id == sid && r.status == "completed")
    (fun (r : VSessionRow) => { r with notes := some notes, notes_generated := true })
    (fun x => rfl) vs.sessions

/-- C3 (amended): on any voice-session store, calling notes generation twice
returns identical text on both calls provided the first call's text is
non-empty (the cached-notes read falls back to a placeholder when the cached
text is the empty string), the external language-model call is performed at
most once across the two calls, and a completed, not-yet-generated session
with zero transcription rows yields the not-found-like failure with no
external call. -/
theorem notes_generation_idempotent (keySet : Bool)
    (api1 api2 : String → Except String String) (vs : VStore) (sid : String) :
    (((generateNotes keySet api1 vs sid).2.1.2 ≠ "") →
      (generateNotes keySet api2 (generateNotes keySet api1 vs sid).1 sid).2.1.2
        = (generateNotes keySet api1 vs sid).2.1.2) ∧
    ((generateNotes keySet api1 vs sid).2.2 +
      (generateNotes keySet api2 (generateNotes keySet api1 vs sid).1 sid).2.2 ≤ 1) ∧
    (∀ sess, findSessionCompleted vs sid = some sess → sess.notes_generated = false →
      vs.transcriptions.filter (fun t => t.session_sid == sid) = [] →
      (generateNotes keySet api1 vs sid).2 =
        ((false, "No transcriptions found for this session"), 0)) := by
  cases hfs : findSessionCompleted vs sid with
  | none =>
      refine ⟨?_, ?_, ?_⟩
      · intro _
        simp only [generateNotes, hfs]
      · simp only [generateNotes, hfs]
        omega
      · intro sess hfs' _ _
        cases hfs'
  | some sess =>
      cases hgen : sess.notes_generated with
      | true =>
          refine ⟨?_, ?_, ?_⟩
          · intro _
            simp only [generateNotes, hfs, hgen, if_true]
          · simp only [generateNotes, hfs, hgen, if_true]
            omega
          · intro sess' hfs' hgen' _
            cases hfs'
            rw [hgen] at hgen'
            cases hgen'
      | false =>
          cases hemp : (List.insertionSort vtLE
              (vs.transcriptions.filter (fun t => t.session_sid == sid))).isEmpty with
          | true =>
              refine ⟨?_, ?_, ?_⟩
              · intro _
                simp only [generateNotes, hfs, hgen, hemp, Bool.false_eq_true, if_false,
                  if_true]
              · simp only [generateNotes, hfs, hgen, hemp, Bool.false_eq_true, if_false,
                  if_true]
                omega
              · intro sess' hfs' _ _
                simp only [generateNotes, hfs, hgen, hemp, Bool.false_eq_true, if_false,
                  if_true]
          | false =>
              have hr1 : generateNotes keySet api1 vs sid =
                  ({ vs with sessions := (updateFirst
                      (fun r => r.session_id == sid && r.status == "completed")
                      (fun r => { r with
                        notes := some (generateStructuredNotes keySet api1
                          (sessionTranscript vs sid)
                          (List.insertionSort vtLE
                            (vs.transcriptions.filter (fun t => t.session_sid == sid))).length).1,
                        notes_generated := true })
                      vs.sessions) },
                    (true, (generateStructuredNotes keySet api1 (sessionTranscript vs sid)
                      (List.insertionSort vtLE
                        (vs.transcriptions.filter (fun t => t.session_sid == sid))).length).1),
                    (generateStructuredNotes keySet api1 (sessionTranscript vs sid)
                      (List.insertionSort vtLE
                        (vs.transcriptions.filter (fun t => t.session_sid == sid))).length).2) := by
                simp only [generateNotes, hfs, hgen, hemp, Bool.false_eq_true, if_false]
                rfl
              have hfs₂ : findSessionCompleted (generateNotes keySet api1 vs sid).1 sid =
                  some { sess with
                    notes := some (generateNotes keySet api1 vs sid).2.1.2,
                    notes_generated := true } := by
                rw [hr1]
                dsimp only
                rw [findSessionCompleted_update, hfs]
                rfl
              have hr2 : (generateNotes keySet api2 (generateNotes keySet api1 vs sid).1 sid) =
                  ((generateNotes keySet api1 vs sid).1,
                    (true, optOr (some (generateNotes keySet api1 vs sid).2.1.2)
                      "Notes already generated"), 0) := by
                rw [show generateNotes keySet api2 (generateNotes keySet api1 vs sid).1 sid =
                    match findSessionCompleted (generateNotes keySet api1 vs sid).1 sid with
                  | none => ((generateNotes keySet api1 vs sid).1,
                      (false, "Session not found or not completed"), 0)
                  | some sess =>
                      if sess.notes_generated then
                        ((generateNotes keySet api1 vs sid).1,
                          (true, optOr sess.notes "Notes already generated"), 0)
                      else _ from rfl]
                rw [hfs₂]
                simp
              refine ⟨?_, ?_, ?_⟩
              · intro hne
                rw [hr2]
                dsimp only
                rw [optOr_some, if_neg hne]
              · rw [hr2]
                simp only [hr1]
                have := generateStructuredNotes_calls keySet api1 (sessionTranscript vs sid)
                  (List.insertionSort vtLE
                    (vs.transcriptions.filter (fun t => t.session_sid == sid))).length
                omega
              · intro sess' hfs' hgen' hfil
                rw [hfil] at hemp
                simp at hemp

/-- C3 witness: one completed session with one transcription and a
successful model call; the first call's text is non-empty, the second call
returns the same text; and a session with no transcription rows fails with
the not-found-like reply. -/
theorem notes_generation_idempotent_witness :
    ((generateNotes true apiOk fixVStore "s1").2.1.2 ≠ "" ∧
      (generateNotes true apiOk ((generateNotes true apiOk fixVStore "s1").1) "s1").2.1.2
        = (generateNotes true apiOk fixVStore "s1").2.1.2) ∧
    (findSessionCompleted fixVStoreNoTrans "s1" = some fixVSession ∧
      fixVSession.notes_generated = false ∧
      (generateNotes true apiOk fixVStoreNoTrans "s1").2 =
        ((false, "No transcriptions found for this session"), 0)) := by
  refine ⟨⟨by decide, ?_⟩, by decide, by decide, ?_⟩
  · exact (notes_generation_idempotent true apiOk apiOk fixVStore "s1").1 (by decide)
  · exact (notes_generation_idempotent true apiOk apiOk fixVStoreNoTrans "s1").2.2
      fixVSession (by decide) (by decide) (by decide)

/-- C3 counterexample: when the model's reply strips to the empty string,
the first call returns "" while the second returns the cached-notes
placeholder, so the two calls do not return identical text. -/
theorem notes_generation_idempotent_cex :
    (generateNotes true apiEmpty fixVStore "s1").2.1.2 = "" ∧
    (generateNotes true apiEmpty ((generateNotes true apiEmpty fixVStore "s1").1) "s1").2.1.2
      = "Notes already generated" ∧
    ¬ ((generateNotes true apiEmpty fixVStore "s1").2.1.2 =
        (generateNotes true apiEmpty
          ((generateNotes true apiEmpty fixVStore "s1").1) "s1").2.1.2) := by decide

/-- C4 (amended): on a completed, not-yet-generated session with
transcription rows, notes generation returns success with a text; when the
external call fails it is the user-facing error string (no exception
escapes); the returned text — successful or error — is persisted onto the
session with the generated flag set; and a subsequent call leaves the store
unchanged, so the flag is set exactly once. -/
theorem notes_error_string_persisted (keySet : Bool)
    (api api2 : String → Except String String) (vs : VStore) (sid : String)
    (sess : VSessionRow)
    (hfind : findSessionCompleted vs sid = some sess)
    (hgen : sess.notes_generated = false)
    (hne : vs.transcriptions.filter (fun t => t.session_sid == sid) ≠ []) :
    ((generateNotes keySet api vs sid).2.1.1 = true) ∧
    (∀ e, keySet = true → api (pyTakeChars 15000 (sessionTranscript vs sid)) = .error e →
      (generateNotes keySet api vs sid).2.1.2 = "Error generating notes: " ++ e) ∧
    (findSessionCompleted (generateNotes keySet api vs sid).1 sid =
      some { sess with notes := some (generateNotes keySet api vs sid).2.1.2,
                       notes_generated := true }) ∧
    ((generateNotes keySet api2 (generateNotes keySet api vs sid).1 sid).1 =
      (generateNotes keySet api vs sid).1) := by
  have htrne : List.insertionSort vtLE
      (vs.transcriptions.filter (fun t => t.session_sid == sid)) ≠ [] := by
    intro hcon
    have hlen := (List.perm_insertionSort vtLE
      (vs.transcriptions.filter (fun t => t.session_sid == sid))).length_eq
    rw [hcon] at hlen
    exact hne (List.length_eq_zero.mp hlen.symm)
  have hemp : (List.insertionSort vtLE
      (vs.transcriptions.filter (fun t => t.session_sid == sid))).isEmpty = false := by
    cases h : (List.insertionSort vtLE
        (vs.transcriptions.filter (fun t => t.session_sid == sid))).isEmpty
    · rfl
    · exact absurd (List.isEmpty_iff.mp h) htrne
  have hr1 : generateNotes keySet api vs sid =
      ({ vs with sessions := (updateFirst
          (fun r => r.session_id == sid && r.status == "completed")
          (fun r => { r with
            notes := some (generateStructuredNotes keySet api
              (sessionTranscript vs sid)
              (List.insertionSort vtLE
                (vs.transcriptions.filter (fun t => t.session_sid == sid))).length).1,
            notes_generated := true })
          vs.sessions) },
        (true, (generateStructuredNotes keySet api (sessionTranscript vs sid)
          (List.insertionSort vtLE
            (vs.transcriptions.filter (fun t => t.session_sid == sid))).length).1),
        (generateStructuredNotes keySet api (sessionTranscript vs sid)
          (List.insertionSort vtLE
            (vs.transcriptions.filter (fun t => t.session_sid == sid))).length).2) := by
    simp only [generateNotes, hfind, hgen, hemp, Bool.false_eq_true, if_false]
    rfl
  have hfs₂ : findSessionCompleted (generateNotes keySet api vs sid).1 sid =
      some { sess with notes := some (generateNotes keySet api vs sid).2.1.2,
                       notes_generated := true } := by
    rw [hr1]
    dsimp only
    rw [findSessionCompleted_update, hfind]
    rfl
  refine ⟨by rw [hr1], ?_, hfs₂, ?_⟩
  · intro e hks herr
    subst hks
    rw [hr1]
    dsimp only
    unfold generateStructuredNotes
    rw [herr]
    simp
  · rw [show generateNotes keySet api2 (generateNotes keySet api vs sid).1 sid =
        match findSessionCompleted (generateNotes keySet api vs sid).1 sid with
      | none => ((generateNotes keySet api vs sid).1,
          (false, "Session not found or not completed"), 0)
      | some sess =>
          if sess.notes_generated then
            ((generateNotes keySet api vs sid).1,
              (true, optOr sess.notes "Notes already generated"), 0)
          else _ from rfl]
    rw [hfs₂]
    simp

/-- C4 witness: a failing model call on a concrete completed session; the
error string is returned with success and is persisted with the flag set,
and a second call does not write again. -/
theorem notes_error_string_persisted_witness :
    (findSessionCompleted fixVStore "s1" = some fixVSession ∧
      fixVSession.notes_generated = false ∧
      fixVStore.transcriptions.filter (fun t => t.session_sid == "s1") ≠ [] ∧
      apiBoom (pyTakeChars 15000 (sessionTranscript fixVStore "s1")) = .error "boom") ∧
    (generateNotes true apiBoom fixVStore "s1").2.1.2 = "Error generating notes: boom" ∧
    findSessionCompleted (generateNotes true apiBoom fixVStore "s1").1 "s1" =
      some { fixVSession with notes := some "Error generating notes: boom",
                              notes_generated := true } := by
  have h := notes_error_string_persisted true apiBoom apiBoom fixVStore "s1" fixVSession
    (by decide) (by decide) (by decide)
  have htext := h.2.1 "boom" rfl rfl
  refine ⟨⟨by decide, by decide, by decide, rfl⟩, htext, ?_⟩
  have hpers := h.2.2.1
  rw [htext] at hpers
  exact hpers

/-- C4 counterexample: the claim says only successful output is persisted,
but on a failing model call the error string itself is stored as the
session's notes and the generated flag is set. -/
theorem notes_error_string_persisted_cex :
    (generateNotes true apiBoom fixVStore "s1").1.sessions =
      [⟨"s1", 10, "completed", some 20, some "Error generating notes: boom", true⟩] ∧
    (generateNotes true apiBoom fixVStore "s1").2 =
      ((true, "Error generating notes: boom"), 1) := by decide

/-! ## Claim C5 -/

def fixGen : String → Nat → Nat → String := fun _ _ _ => "SUMMARY"

/-- Store with channel and user rows and a single attachment-only message
whose body strips to the empty string. -/
def fixStoreBlank : Store :=
  runOps [.guild fixServer, .chan fixChannel, .user fixUser, .message fixMsgBlank]

/-- Store with channel and user rows and no messages at all. -/
def fixStoreNoMsg : Store :=
  runOps [.guild fixServer, .chan fixChannel, .user fixUser]

/-- C5: once the channel row is resolved, a window of zero stored messages
makes the summary command reply with the no-messages response, and a
non-empty window in which every message body strips to the empty string
(attachments/embeds only) makes it reply with the only-media response; in
both cases the summary generator is called zero times. -/
theorem summary_empty_and_media_replies (gen : String → Nat → Nat → String)
    (s : Store) (inCh : InChannel) (now : Int) (hours limit : Option Int)
    (s' : Store) (ch : ChannelRow)
    (hgoc : getOrCreateChannel inCh s = .ok (s', ch)) :
    (getMessages s' ch (summaryCutoff now hours) limit = [] →
      summaryRun gen s inCh now hours limit = (s', .noMessages, 0)) ∧
    (getMessages s' ch (summaryCutoff now hours) limit ≠ [] →
      (∀ m ∈ getMessages s' ch (summaryCutoff now hours) limit, pyStrip m.content = "") →
      summaryRun gen s inCh now hours limit = (s', .onlyMedia, 0)) := by
  constructor
  · intro hmsgs
    unfold summaryRun
    simp only [hgoc, hmsgs]
    simp
  · intro hne hall
    have hempf : (getMessages s' ch (summaryCutoff now hours) limit).isEmpty = false := by
      cases h : (getMessages s' ch (summaryCutoff now hours) limit).isEmpty
      · rfl
      · exact absurd (List.isEmpty_iff.mp h) hne
    have hlines : conversationLines s'
        (getMessages s' ch (summaryCutoff now hours) limit) = [] := by
      unfold conversationLines
      rw [List.filterMap_eq_nil_iff]
      intro m hm
      rw [if_pos (hall m (List.mem_reverse.mp hm))]
    unfold summaryRun
    simp only [hgoc, hempf, Bool.false_eq_true, if_false, hlines]
    simp

/-- C5 witness: an attachment-only window yields the only-media reply with
zero generator calls, and an empty channel yields the no-messages reply. -/
theorem summary_empty_and_media_replies_witness :
    (getOrCreateChannel fixChannel fixStoreBlank = .ok (fixStoreBlank, ⟨10, 1, "general", "text"⟩) ∧
      getMessages fixStoreBlank ⟨10, 1, "general", "text"⟩ (summaryCutoff 100 none) none ≠ [] ∧
      (∀ m ∈ getMessages fixStoreBlank ⟨10, 1, "general", "text"⟩ (summaryCutoff 100 none) none,
        pyStrip m.content = "") ∧
      summaryRun fixGen fixStoreBlank fixChannel 100 none none =
        (fixStoreBlank, .onlyMedia, 0)) ∧
    (getMessages fixStoreNoMsg ⟨10, 1, "general", "text"⟩ (summaryCutoff 100 none) none = [] ∧
      summaryRun fixGen fixStoreNoMsg fixChannel 100 none none =
        (fixStoreNoMsg, .noMessages, 0)) := by
  refine ⟨⟨by rfl, by decide, by decide, ?_⟩, by decide, ?_⟩
  · exact (summary_empty_and_media_replies fixGen fixStoreBlank fixChannel 100 none none
      fixStoreBlank ⟨10, 1, "general", "text"⟩ (by rfl)).2 (by decide) (by decide)
  · exact (summary_empty_and_media_replies fixGen fixStoreNoMsg fixChannel 100 none none
      fixStoreNoMsg ⟨10, 1, "general", "text"⟩ (by rfl)).1 (by decide)

/-! ## Claim C10 -/

/-- C10: with no arguments the summary window is exactly the 50 most recent
stored non-bot messages of the channel, fewer when the channel has fewer: no
time cutoff is applied, the window's length is `min 50` of the eligible
count, every selected row is an eligible stored row, every eligible row left
out is no newer than every selected row, and the window is replayed
oldest-first (the reversed window is chronologically sorted). -/
theorem summary_default_window (s : Store) (ch : ChannelRow) (now : Int) :
    summaryCutoff now none = none ∧
    (getMessages s ch none none).length =
      min 50 (s.messages.filter
        (fun m => m.channel_id == ch.channel_id && !(msgAuthorBot s m))).length ∧
    (∀ m ∈ getMessages s ch none none,
      m ∈ s.messages.filter
        (fun m => m.channel_id == ch.channel_id && !(msgAuthorBot s m))) ∧
    (∀ m ∈ s.messages.filter
        (fun m => m.channel_id == ch.channel_id && !(msgAuthorBot s m)),
      m ∉ getMessages s ch none none →
      ∀ m' ∈ getMessages s ch none none, m.timestamp ≤ m'.timestamp) ∧
    List.Pairwise (fun a b => a.timestamp ≤ b.timestamp)
      (getMessages s ch none none).reverse := by
  have hsel : getMessages s ch none none =
      (List.insertionSort msgRecentFirst (s.messages.filter
        (fun m => m.channel_id == ch.channel_id && !(msgAuthorBot s m)))).take 50 := rfl
  have hperm := List.perm_insertionSort msgRecentFirst (s.messages.filter
    (fun m => m.channel_id == ch.channel_id && !(msgAuthorBot s m)))
  have hsort : List.Sorted msgRecentFirst (List.insertionSort msgRecentFirst
      (s.messages.filter (fun m => m.channel_id == ch.channel_id && !(msgAuthorBot s m)))) :=
    List.sorted_insertionSort msgRecentFirst _
  refine ⟨rfl, ?_, ?_, ?_, ?_⟩
  · rw [hsel, List.length_take, hperm.length_eq]
  · intro m hm
    rw [hsel] at hm
    exact hperm.mem_iff.mp (List.take_subset 50 _ hm)
  · intro m hmel hnot m' hm'
    rw [hsel] at hnot hm'
    have hmem : m ∈ (List.insertionSort msgRecentFirst (s.messages.filter
        (fun m => m.channel_id == ch.channel_id && !(msgAuthorBot s m)))) :=
      hperm.mem_iff.mpr hmel
    rw [← List.take_append_drop 50 (List.insertionSort msgRecentFirst
      (s.messages.filter (fun m => m.channel_id == ch.channel_id && !(msgAuthorBot s m))))]
      at hmem
    rcases List.mem_append.mp hmem with hmem | hmem
    · exact absurd hmem hnot
    · have hpw := hsort
      unfold List.Sorted at hpw
      rw [← List.take_append_drop 50 (List.insertionSort msgRecentFirst
        (s.messages.filter (fun m => m.channel_id == ch.channel_id && !(msgAuthorBot s m))))]
        at hpw
      exact (List.pairwise_append.mp hpw).2.2 m' hm' m hmem
  · rw [hsel, List.pairwise_reverse]
    have htake : List.Pairwise msgRecentFirst ((List.insertionSort msgRecentFirst
        (s.messages.filter
          (fun m => m.channel_id == ch.channel_id && !(msgAuthorBot s m)))).take 50) :=
      List.Pairwise.sublist (List.take_sublist 50 _) hsort
    exact htake

/-- C10 witness: on a store with one text message the window has length
`min 50 1 = 1` and the stored row is in the eligible set. -/
theorem summary_default_window_witness :
    (getMessages fixStoreMsg ⟨10, 1, "general", "text"⟩ none none).length =
      min 50 (fixStoreMsg.messages.filter
        (fun m => m.channel_id == (10 : Nat) && !(msgAuthorBot fixStoreMsg m))).length ∧
    mkMessageRow fixMsgText 10 100 ∈ fixStoreMsg.messages.filter
      (fun m => m.channel_id == (10 : Nat) && !(msgAuthorBot fixStoreMsg m)) := by
  refine ⟨(summary_default_window fixStoreMsg ⟨10, 1, "general", "text"⟩ 100).2.1, ?_⟩
  exact (summary_default_window fixStoreMsg ⟨10, 1, "general", "text"⟩ 100).2.2.1
    (mkMessageRow fixMsgText 10 100) (by decide)

/-! ## Claim C7 -/

theorem applyRecOp_nodup {r : RecorderState} (hn : (activeChannels r).Nodup) (op : RecOp) :
    (activeChannels (applyRecOp r op)).Nodup := by
  cases op with
  | start en c se ch sid =>
      show (activeChannels (startRecording en c se ch sid r).1).Nodup
      unfold startRecording
      cases en with
      | false => exact hn
      | true =>
          rw [if_neg (by simp)]
          by_cases hmem : ch ∈ activeChannels r
          · rw [if_pos hmem]
            exact hn
          · rw [if_neg hmem]
            cases c with
            | false => exact hn
            | true =>
                rw [if_neg (by simp)]
                cases se with
                | false => exact hn
                | true =>
                    rw [if_neg (by simp)]
                    show (List.map Prod.fst (r.active_sessions ++ [(ch, sid)])).Nodup
                    rw [List.map_append]
                    simp only [List.map_cons, List.map_nil]
                    rw [List.nodup_append]
                    refine ⟨hn, List.nodup_singleton ch, ?_⟩
                    intro a ha hb
                    rw [List.mem_singleton] at hb
                    subst hb
                    exact hmem ha
  | stop d ch =>
      show (activeChannels (stopRecording d ch r).1).Nodup
      unfold stopRecording
      by_cases hmem : ch ∉ activeChannels r
      · rw [if_pos hmem]
        exact hn
      · rw [if_neg hmem]
        cases d with
        | false => exact hn
        | true =>
            rw [if_neg (by simp)]
            show (List.map Prod.fst
              (r.active_sessions.filter (fun p => p.fst != ch))).Nodup
            exact List.Nodup.sublist ((List.filter_sublist _).map Prod.fst) hn

/-- C7: at most one recording session is active per voice-channel id, for
every recorder state reachable from process start by start/stop requests
(the channel-keyed session map stays duplicate-free), and a start request on
an already-active channel or with the transcription feature disabled is
rejected without creating a session, joining the channel, or changing the
recorder state. -/
theorem recorder_one_session_per_channel :
    (∀ ops : List RecOp, (activeChannels (runRecOps ops)).Nodup) ∧
    (∀ (enabled connectOk sessionOk : Bool) (chId : Nat) (sid : String)
        (r : RecorderState),
      (enabled = false ∨ chId ∈ activeChannels r) →
      (startRecording enabled connectOk sessionOk chId sid r).1 = r ∧
      (startRecording enabled connectOk sessionOk chId sid r).2.1 = false) := by
  constructor
  · have main : ∀ (ops : List RecOp) (r : RecorderState), (activeChannels r).Nodup →
        (activeChannels (ops.foldl applyRecOp r)).Nodup := by
      intro ops
      induction ops with
      | nil => exact fun r hr => hr
      | cons op ops ih => exact fun r hr => ih _ (applyRecOp_nodup hr op)
    exact fun ops => main ops RecorderState.init List.nodup_nil
  · intro enabled cOk sOk chId sid r h
    rcases h with h | h
    · subst h
      unfold startRecording
      exact ⟨rfl, rfl⟩
    · unfold startRecording
      cases enabled
      · exact ⟨rfl, rfl⟩
      · rw [if_neg (by simp), if_pos h]
        exact ⟨rfl, rfl⟩

/-- A state with channel 7 recording, reached through a successful start. -/
def fixRec : RecorderState := (startRecording true true true 7 "sid" RecorderState.init).1

/-- C7 witness: starting again on the already-active channel 7 is rejected
and leaves the state untouched. -/
theorem recorder_one_session_per_channel_witness :
    (7 ∈ activeChannels fixRec) ∧
    (startRecording true true true 7 "other" fixRec).1 = fixRec ∧
    (startRecording true true true 7 "other" fixRec).2.1 = false := by
  have hmem : 7 ∈ activeChannels fixRec := by decide
  exact ⟨hmem,
    recorder_one_session_per_channel.2 true true true 7 "other" fixRec (Or.inr hmem)⟩

/-! ## Claim C8 -/

/-- The outcome one speaker contributes to a cycle: a stored row exactly when
the oracle yields a non-empty transcript without raising. -/
def cycleOutcome (oracle : Nat → Except String (Option String)) (u : Nat) :
    Option (Nat × String) :=
  match oracle u with
  | .ok (some t) => some (u, t)
  | .ok none => none
  | .error _ => none

theorem cycleStep_append (oracle : Nat → Except String (Option String))
    (acc : List (Nat × String)) (u : Nat) :
    cycleStep oracle acc u = acc ++ cycleStep oracle [] u := by
  unfold cycleStep
  cases h : oracle u with
  | ok v => cases v <;> simp
  | error e => simp

theorem transcribeCycle_go (oracle : Nat → Except String (Option String)) :
    ∀ (speakers : List Nat) (acc : List (Nat × String)),
      speakers.foldl (cycleStep oracle) acc = acc ++ speakers.foldl (cycleStep oracle) [] := by
  intro speakers
  induction speakers with
  | nil => simp
  | cons u us ih =>
      intro acc
      simp only [List.foldl_cons]
      rw [ih (cycleStep oracle acc u), ih (cycleStep oracle [] u),
        cycleStep_append oracle acc u, List.append_assoc]

theorem transcribeCycle_filterMap (oracle : Nat → Except String (Option String))
    (speakers : List Nat) :
    transcribeCycle oracle speakers = speakers.filterMap (cycleOutcome oracle) := by
  induction speakers with
  | nil => rfl
  | cons u us ih =>
      show (u :: us).foldl (cycleStep oracle) [] = _
      rw [List.foldl_cons, transcribeCycle_go oracle us (cycleStep oracle [] u)]
      show cycleStep oracle [] u ++ transcribeCycle oracle us = _
      rw [ih, List.filterMap_cons]
      unfold cycleStep cycleOutcome
      cases h : oracle u with
      | ok v => cases v <;> simp
      | error e => simp

/-- C8: within one transcription cycle the speakers' buffers are processed
independently: the cycle's stored rows are exactly the per-speaker outcomes
of every speaker in the list, and excising a speaker whose transcription or
storage raises leaves the other speakers' stored rows unchanged — a failure
for one speaker does not prevent processing the remaining speakers of the
same cycle. -/
theorem cycle_failure_isolated :
    (∀ (oracle : Nat → Except String (Option String)) (speakers : List Nat),
      transcribeCycle oracle speakers = speakers.filterMap (cycleOutcome oracle)) ∧
    (∀ (oracle : Nat → Except String (Option String)) (pre : List Nat) (bad : Nat)
        (post : List Nat) (e : String), oracle bad = .error e →
      transcribeCycle oracle (pre ++ bad :: post) =
        transcribeCycle oracle pre ++ transcribeCycle oracle post) := by
  refine ⟨transcribeCycle_filterMap, ?_⟩
  intro oracle pre bad post e herr
  rw [transcribeCycle_filterMap, transcribeCycle_filterMap, transcribeCycle_filterMap,
    List.filterMap_append, List.filterMap_cons]
  have : cycleOutcome oracle bad = none := by
    unfold cycleOutcome
    rw [herr]
  rw [this]

/-- A concrete cycle oracle: speaker 2 raises, the others transcribe. -/
def fixOracle : Nat → Except String (Option String) :=
  fun u => if u = 2 then .error "whisper boom" else .ok (some "words")

/-- C8 witness: with speaker 2 failing mid-cycle, speakers 1 and 3 are still
processed and stored. -/
theorem cycle_failure_isolated_witness :
    fixOracle 2 = .error "whisper boom" ∧
    transcribeCycle fixOracle ([1] ++ 2 :: [3]) =
      transcribeCycle fixOracle [1] ++ transcribeCycle fixOracle [3] ∧
    transcribeCycle fixOracle ([1] ++ 2 :: [3]) = [(1, "words"), (3, "words")] := by
  refine ⟨rfl, ?_, by decide⟩
  exact cycle_failure_isolated.2 fixOracle [1] 2 [3] "whisper boom" rfl

/-! ## Claim C6 -/

/-- Number of stored message rows carrying a given id. -/
def countId (l : List MessageRow) (i : Nat) : Nat :=
  (l.filter (fun r => r.message_id == i)).length

theorem storeMessage_mono {s : Store} {m : InMsg} {row : MessageRow}
    (h : row ∈ s.messages) : row ∈ (storeMessage m s).messages := by
  rcases storeMessage_messages m s with he | ⟨_, r, _, he⟩
  · rw [he]
    exact h
  · rw [he]
    exact List.mem_append_left _ h

theorem storeMessage_countId {s : Store} {m : InMsg} {i : Nat}
    (hi : findMessage s i ≠ none) :
    countId (storeMessage m s).messages i = countId s.messages i := by
  rcases storeMessage_messages m s with he | ⟨habs, r, hrid, he⟩
  · rw [he]
  · rw [he]
    unfold countId
    rw [List.filter_append]
    have hne : (r.message_id == i) = false := by
      rw [beq_eq_false_iff_ne]
      intro hcon
      rw [hrid] at hcon
      rw [hcon] at habs
      exact hi habs
    simp [hne]

theorem storeMessage_present {s : Store} {m : InMsg} {i : Nat}
    (hi : findMessage s i ≠ none) : findMessage (storeMessage m s) i ≠ none := by
  rcases storeMessage_messages m s with he | ⟨_, r, _, he⟩
  · rw [findMessage_congr he i]
    exact hi
  · unfold findMessage at hi ⊢
    rw [he, List.find?_append]
    cases h : s.messages.find? (fun r => r.message_id == i) with
    | none => exact absurd h hi
    | some v => simp

theorem backfill_fold_inv (existing : List Nat) (history : List InMsg) :
    ∀ acc : Store × Nat,
      (∀ row ∈ acc.1.messages, row ∈ (history.foldl (fun acc m =>
          if m.mid ∈ existing then acc
          else if m.author.bot then acc
          else (storeMessage m acc.1, acc.2 + 1)) acc).1.messages) ∧
      (∀ i, findMessage acc.1 i ≠ none →
        countId (history.foldl (fun acc m =>
          if m.mid ∈ existing then acc
          else if m.author.bot then acc
          else (storeMessage m acc.1, acc.2 + 1)) acc).1.messages i =
        countId acc.1.messages i) := by
  induction history with
  | nil => exact fun acc => ⟨fun row h => h, fun i _ => rfl⟩
  | cons m ms ih =>
      intro acc
      simp only [List.foldl_cons]
      by_cases h1 : m.mid ∈ existing
      · rw [if_pos h1]
        exact ih acc
      · rw [if_neg h1]
        by_cases h2 : m.author.bot = true
        · rw [if_pos h2]
          exact ih acc
        · rw [if_neg h2]
          have hstep := ih (storeMessage m acc.1, acc.2 + 1)
          constructor
          · intro row hrow
            exact hstep.1 row (storeMessage_mono hrow)
          · intro i hi
            rw [hstep.2 i (storeMessage_present hi), storeMessage_countId hi]

theorem backfillChannel_inv (s : Store) (ch : ChannelRow) (history : List InMsg) :
    (∀ row ∈ s.messages, row ∈ (backfillChannel s ch history).1.messages) ∧
    (∀ i, findMessage s i ≠ none →
      countId (backfillChannel s ch history).1.messages i = countId s.messages i) :=
  backfill_fold_inv
    ((s.messages.filter (fun (m : MessageRow) => m.channel_id == ch.channel_id)).map
      (fun (m : MessageRow) => m.message_id)) history (s, 0)

theorem runBackfill_fold_inv (hist : Nat → List InMsg) (channels : List ChannelRow) :
    ∀ acc : Store × Nat,
      (∀ row ∈ acc.1.messages, row ∈ (channels.foldl (fun acc ch =>
          ((backfillChannel acc.1 ch (hist ch.channel_id)).1,
            acc.2 + (backfillChannel acc.1 ch (hist ch.channel_id)).2)) acc).1.messages) ∧
      (∀ i, findMessage acc.1 i ≠ none →
        countId (channels.foldl (fun acc ch =>
          ((backfillChannel acc.1 ch (hist ch.channel_id)).1,
            acc.2 + (backfillChannel acc.1 ch (hist ch.channel_id)).2)) acc).1.messages i =
        countId acc.1.messages i) := by
  induction channels with
  | nil => exact fun acc => ⟨fun row h => h, fun i _ => rfl⟩
  | cons ch chs ih =>
      intro acc
      simp only [List.foldl_cons]
      have hone := backfillChannel_inv acc.1 ch (hist ch.channel_id)
      have hstep := ih ((backfillChannel acc.1 ch (hist ch.channel_id)).1,
        acc.2 + (backfillChannel acc.1 ch (hist ch.channel_id)).2)
      constructor
      · intro row hrow
        exact hstep.1 row (hone.1 row hrow)
      · intro i hi
        have hpres : findMessage (backfillChannel acc.1 ch (hist ch.channel_id)).1 i
            ≠ none := by
          intro hcon
          have hiff : ∀ (t : Store) (j : Nat),
              findMessage t j = none ↔ countId t.messages j = 0 := by
            intro t j
            unfold findMessage countId
            rw [List.find?_eq_none, List.length_eq_zero, List.filter_eq_nil_iff]
          have hc0 := (hiff _ i).mp hcon
          rw [hone.2 i hi] at hc0
          exact hi ((hiff acc.1 i).mpr hc0)
        rw [hstep.2 i hpres, hone.2 i hi]

/-- C6: running backfill with skip-existing set, a channel holding at least
one stored message inside the lookback window is excluded from the run, and
the run never touches an already-stored message row: every pre-existing row
survives unchanged and the number of rows carrying an already-present id is
unchanged (no already-present id is stored again). -/
theorem backfill_skip_existing (s : Store) (channels : List ChannelRow)
    (hist : Nat → List InMsg) (cutoff : Int) :
    (∀ ch ∈ channels, hasRecentMessage s ch cutoff = true →
      ch ∉ channelsToBackfill s channels true cutoff) ∧
    (∀ row ∈ s.messages, row ∈ (runBackfill s channels hist true cutoff).1.messages) ∧
    (∀ i, findMessage s i ≠ none →
      countId (runBackfill s channels hist true cutoff).1.messages i =
        countId s.messages i) := by
  refine ⟨?_, ?_, ?_⟩
  · intro ch _ hrec hmem
    unfold channelsToBackfill at hmem
    rw [if_pos rfl] at hmem
    have hkeep := (List.mem_filter.mp hmem).2
    rw [hrec] at hkeep
    simp at hkeep
  · exact (runBackfill_fold_inv hist (channelsToBackfill s channels true cutoff) (s, 0)).1
  · exact (runBackfill_fold_inv hist (channelsToBackfill s channels true cutoff) (s, 0)).2

/-- C6 witness: one channel with a stored in-window message is skipped, its
stored row survives the run unchanged, and its id is not stored again. -/
theorem backfill_skip_existing_witness :
    (hasRecentMessage fixStoreMsg ⟨10, 1, "general", "text"⟩ 0 = true ∧
      ⟨10, 1, "general", "text"⟩ ∉
        channelsToBackfill fixStoreMsg [⟨10, 1, "general", "text"⟩] true 0) ∧
    (mkMessageRow fixMsgText 10 100 ∈
      (runBackfill fixStoreMsg [⟨10, 1, "general", "text"⟩]
        (fun _ => [fixMsgB]) true 0).1.messages) ∧
    countId (runBackfill fixStoreMsg [⟨10, 1, "general", "text"⟩]
        (fun _ => [fixMsgB]) true 0).1.messages 1002 = countId fixStoreMsg.messages 1002 := by
  refine ⟨⟨by decide, ?_⟩, ?_, ?_⟩
  · exact (backfill_skip_existing fixStoreMsg [⟨10, 1, "general", "text"⟩]
      (fun _ => [fixMsgB]) 0).1 ⟨10, 1, "general", "text"⟩ (by decide) (by decide)
  · exact (backfill_skip_existing fixStoreMsg [⟨10, 1, "general", "text"⟩]
      (fun _ => [fixMsgB]) 0).2.1 (mkMessageRow fixMsgText 10 100) (by decide)
  · exact (backfill_skip_existing fixStoreMsg [⟨10, 1, "general", "text"⟩]
      (fun _ => [fixMsgB]) 0).2.2 1002 (by decide)

/-! ## Claim C9 -/

theorem chanIds_congr {s t : Store} (h : t.channels = s.channels) :
    chanIds t = chanIds s := by
  unfold chanIds
  rw [h]

theorem userIds_congr {s t : Store} (h : t.users = s.users) :
    userIds t = userIds s := by
  unfold userIds
  rw [h]

theorem msgIds_congr {s t : Store} (h : t.messages = s.messages) :
    msgIds t = msgIds s := by
  unfold msgIds
  rw [h]

theorem refIntegrity_mono {s t : Store} (hch : chanIds s ⊆ chanIds t)
    (hus : userIds s ⊆ userIds t) (hm : t.messages = s.messages)
    (hr : t.reactions = s.reactions) (h : refIntegrity s) : refIntegrity t := by
  constructor
  · intro m hm'
    rw [hm] at hm'
    rcases h.1 m hm' with ⟨h1, h2⟩
    exact ⟨hch h1, hus h2⟩
  · intro r hr'
    rw [hr] at hr'
    have h3 := h.2 r hr'
    unfold hasMessageId at h3 ⊢
    rw [msgIds_congr hm]
    exact h3

theorem storeReaction_integ (msgId : Nat) (en : String) (eid : Option Nat) (cnt : Nat)
    {s : Store} (h : refIntegrity s) : refIntegrity (storeReaction msgId en eid cnt s) := by
  unfold storeReaction
  split
  · exact h
  · next mrow hfm =>
      split
      · constructor
        · intro m hm
          exact h.1 m hm
        · intro r hr
          rcases List.mem_append.mp hr with hold | hnew
          · exact h.2 r hold
          · rw [List.mem_singleton] at hnew
            subst hnew
            have hmem := List.mem_of_find?_eq_some hfm
            have hid : mrow.message_id = msgId := by simpa using List.find?_some hfm
            show msgId ∈ msgIds s
            unfold msgIds
            rw [← hid]
            exact List.mem_map_of_mem _ hmem
      · split
        · constructor
          · intro m hm
            exact h.1 m hm
          · intro r hr
            rcases mem_updateFirst _ _ _ hr with ⟨x, hx, hor⟩
            have hxint := h.2 x hx
            rcases hor with rfl | rfl
            · exact hxint
            · exact hxint
        · exact h

theorem foldReactions_integ (mid : Nat) (l : List InReaction) :
    ∀ st : Store, refIntegrity st →
      refIntegrity (l.foldl
        (fun st r => storeReaction mid r.emoji_name r.emoji_id r.count st) st) := by
  induction l with
  | nil => exact fun st h => h
  | cons x xs ih =>
      intro st h
      simp only [List.foldl_cons]
      exact ih _ (storeReaction_integ _ _ _ _ h)

theorem storeMessage_integ (m : InMsg) {s : Store} (h : refIntegrity s) :
    refIntegrity (storeMessage m s) := by
  unfold storeMessage
  split
  · exact h
  · next s1 ch hch =>
      rcases gocChannel_ok_proj hch with ⟨hu1, hm1, hr1, hsubc, hchmem, hchid⟩
      split
      · exact refIntegrity_mono hsubc
          (fun i hi => (userIds_congr hu1).symm ▸ hi) hm1 hr1 h
      · next s2 u hu =>
          rcases gocUser_ok_proj hu with ⟨hc2, hm2, hr2, hsubu, humem, huid⟩
          have hs2 : refIntegrity s2 :=
            refIntegrity_mono
              (fun i hi => (chanIds_congr hc2).symm ▸ hsubc hi)
              (fun i hi => hsubu ((userIds_congr hu1).symm ▸ hi))
              (hm2.trans hm1) (hr2.trans hr1) h
          split
          · exact foldReactions_integ m.mid m.reactions s2 hs2
          · apply foldReactions_integ m.mid m.reactions
            constructor
            · intro mr hmr
              rcases List.mem_append.mp hmr with hold | hnew
              · exact hs2.1 mr hold
              · rw [List.mem_singleton] at hnew
                subst hnew
                constructor
                · show ch.channel_id ∈ chanIds s2
                  unfold chanIds
                  rw [hc2]
                  exact List.mem_map_of_mem _ hchmem
                · show u.user_id ∈ userIds s2
                  exact List.mem_map_of_mem _ humem
            · intro r hr
              have h3 := hs2.2 r hr
              unfold hasMessageId msgIds at h3 ⊢
              rw [List.map_append]
              exact List.mem_append_left _ h3

theorem onMessageEdit_integ (mid : Nat) (b : Bool) (c : String) (ed : Option Int)
    {s : Store} (h : refIntegrity s) : refIntegrity (onMessageEdit mid b c ed s) := by
  unfold onMessageEdit
  split
  · exact h
  · split
    · exact h
    · constructor
      · intro mr hmr
        rcases mem_updateFirst _ _ _ hmr with ⟨x, hx, hor⟩
        have hxint := h.1 x hx
        rcases hor with rfl | rfl
        · exact hxint
        · exact hxint
      · intro r hr
        have h3 := h.2 r hr
        unfold hasMessageId msgIds at h3 ⊢
        rw [updateFirst_map (fun (r : MessageRow) => r.message_id == mid)
          (fun (r : MessageRow) => { r with content := c, edited_timestamp := ed })
          (fun (m : MessageRow) => m.message_id) (fun x => rfl)]
        exact h3

theorem onMessageDelete_integ (mid : Nat) (b : Bool) {s : Store}
    (h : refIntegrity s) : refIntegrity (onMessageDelete mid b s) := by
  unfold onMessageDelete
  split
  · exact h
  · constructor
    · intro mr hmr
      exact h.1 mr (List.mem_filter.mp hmr).1
    · intro r hr
      have hx := List.mem_filter.mp hr
      have h3 := h.2 r hx.1
      have hrne : r.message_id ≠ mid := by simpa using hx.2
      unfold hasMessageId msgIds at h3 ⊢
      rcases List.mem_map.mp h3 with ⟨x, hxmem, hxid⟩
      apply List.mem_map.mpr
      refine ⟨x, List.mem_filter.mpr ⟨hxmem, ?_⟩, hxid⟩
      rw [bne_iff_ne, hxid]
      exact hrne

theorem updateReactionCount_integ (msgId : Nat) (en : String) (eid : Option Nat)
    (cnt : Nat) {s : Store} (h : refIntegrity s) :
    refIntegrity (updateReactionCount msgId en eid cnt s) := by
  unfold updateReactionCount
  split
  · exact h
  · split
    · constructor
      · intro m hm
        exact h.1 m hm
      · intro r hr
        rcases mem_updateFirst _ _ _ hr with ⟨x, hx, hor⟩
        have hxint := h.2 x hx
        rcases hor with rfl | rfl
        · exact hxint
        · exact hxint
    · exact h

theorem applyOp_integ {s : Store} (h : refIntegrity s) (op : BotOp) :
    refIntegrity (applyOp s op) := by
  cases op with
  | guild g =>
      rcases storeGuild_rest g s with ⟨hc, hu, hm, hr⟩
      exact refIntegrity_mono (fun i hi => (chanIds_congr hc).symm ▸ hi)
        (fun i hi => (userIds_congr hu).symm ▸ hi) hm hr h
  | chan ch =>
      show refIntegrity (match storeChannel ch s with
        | .ok s' => s'
        | .error _ => s)
      cases hsc : storeChannel ch s with
      | ok s' =>
          rcases storeChannel_ok_proj hsc with ⟨hu', hm', hr', hsub⟩
          exact refIntegrity_mono hsub
            (fun i hi => (userIds_congr hu').symm ▸ hi) hm' hr' h
      | error e => exact h
  | user u =>
      rcases storeUser_rest u s with ⟨hc, hm, hr, hsub⟩
      exact refIntegrity_mono (fun i hi => (chanIds_congr hc).symm ▸ hi) hsub hm hr h
  | message m =>
      show refIntegrity (onMessage m s)
      unfold onMessage
      split
      · exact h
      · exact storeMessage_integ m h
  | msgEdit mid b c e => exact onMessageEdit_integ mid b c e h
  | msgDelete mid b => exact onMessageDelete_integ mid b h
  | reactionAdd b msgId r =>
      show refIntegrity (onReactionAdd b msgId r s)
      unfold onReactionAdd
      split
      · exact h
      · exact storeReaction_integ _ _ _ _ h
  | reactionRemove b msgId en eid c =>
      show refIntegrity (onReactionRemove b msgId en eid c s)
      unfold onReactionRemove
      split
      · exact h
      · exact updateReactionCount_integ _ _ _ _ h

/-- C9: for every store reachable from an empty database through listener
events and sync operations, every stored message row references a channel
row and a user row present in the store (parents are created if missing when
the message is first stored), every stored reaction row references a message
row present in the store, and a reaction event whose message is absent is
dropped without creating any row. -/
theorem referential_integrity :
    (∀ ops : List BotOp, refIntegrity (runOps ops)) ∧
    (∀ (s : Store) (msgId : Nat) (en : String) (eid : Option Nat) (cnt : Nat),
      findMessage s msgId = none → storeReaction msgId en eid cnt s = s) := by
  constructor
  · have hempty : refIntegrity Store.empty := by
      constructor
      · intro m hm
        cases hm
      · intro r hr
        cases hr
    have main : ∀ (ops : List BotOp) (s : Store), refIntegrity s →
        refIntegrity (ops.foldl applyOp s) := by
      intro ops
      induction ops with
      | nil => exact fun s h => h
      | cons op ops ih => exact fun s h => ih _ (applyOp_integ h op)
    exact fun ops => main ops Store.empty hempty
  · intro s msgId en eid cnt hnone
    unfold storeReaction
    rw [hnone]

/-- C9 witness: the invariant holds on the concrete listener run behind
`fixStoreMsg`, and a reaction event for an unknown message id leaves the
store untouched. -/
theorem referential_integrity_witness :
    refIntegrity (runOps [.guild fixServer, .chan fixChannel, .user fixUser,
      .message fixMsgText]) ∧
    (findMessage fixStoreMsg 999 = none ∧
      storeReaction 999 "smile" none 1 fixStoreMsg = fixStoreMsg) := by
  refine ⟨referential_integrity.1 _, by decide, ?_⟩
  exact referential_integrity.2 fixStoreMsg 999 "smile" none 1 (by decide)

end ZebraBot
